import Mathlib

/-!
Shallow embedding of `inbox/mailsync/service.py` (class `SyncService`):
the per-process mail-sync scheduler.  Mutable in-process bookkeeping
(`syncing_accounts` and the three monitor dictionaries) is modelled as an
explicit state record threaded through the operations; externally visible
calls (monitor start/kill, persistence markers, heartbeat clearing, queue
claim/unassign) are recorded in an event trace.  Database rows and
injected failures (which exceptions the collaborators raise, and where)
are supplied by explicit environment records, so each run of an operation
is a deterministic function of the state and its environment.

Monitor handles are abstracted to integer tokens chosen by the
environment at construction time; an event-sync handle additionally
records whether the Google-push variant was selected, mirroring the
`GoogleEventSync` / `EventSync` choice in the source.
-/

/-- Kinds of exception a collaborator can raise: `operational` stands for
`sqlalchemy.exc.OperationalError` (the only class `poll` catches), `other`
for every other exception (e.g. the `AttributeError` from dereferencing a
missing account row). -/
inductive Err where
  | operational
  | other
deriving DecidableEq

/-- The fields of an account row that `SyncService` reads (`service.py`
lines 140-177, 216-220). -/
structure Account where
  id : Nat
  sync_email : Bool
  sync_contacts : Bool
  sync_events : Bool
  provider : String
  provider_info_contacts : Bool
  provider_info_events : Bool
  sync_should_run : Bool
deriving DecidableEq

/-- An event-sync monitor handle: the token plus which variant was
constructed (`GoogleEventSync` when Google push notifications are enabled
and the provider is gmail, else `EventSync`; lines 164-177). -/
structure EventMon where
  tok : Nat
  google : Bool
deriving DecidableEq

/-- Externally visible calls made by the service, in program order. -/
inductive Event where
  | claimNext (pid : String)
  | monitorStart (tok : Nat)
  | monitorKill (tok : Nat)
  | setSyncHost (accId : Nat) (pid : String)
  | syncStartedMarker (accId : Nat)
  | clearHeartbeat (accId : Nat)
  | syncStoppedMarker (accId : Nat) (pid : String)
  | unassignCall (accId : Nat) (pid : String)
  | startCall (accId : Nat)
  | stopCall (accId : Nat)
  | logNoSuchAccount (accId : Nat)
  | logAlreadyStarted (accId : Nat)
  | logError (accId : Nat)
  | logDbError (accId : Nat)
deriving DecidableEq

/-- Association-list lookup, modelling Python dict indexing / `in`. -/
def lookupA {α : Type} : List (Nat × α) → Nat → Option α
  | [], _ => none
  | p :: l, k => if p.1 = k then some p.2 else lookupA l k

/-- Association-list deletion, modelling Python `del d[k]`. -/
def delA {α : Type} : List (Nat × α) → Nat → List (Nat × α)
  | [], _ => []
  | p :: l, k => if p.1 = k then delA l k else p :: delA l k

/-- Association-list overwrite, modelling Python `d[k] = v`. -/
def setA {α : Type} (l : List (Nat × α)) (k : Nat) (v : α) : List (Nat × α) :=
  (k, v) :: delA l k

/-- Set insertion, modelling Python `s.add(a)`. -/
def insertL (l : List Nat) (a : Nat) : List Nat :=
  if a ∈ l then l else a :: l

/-- Set removal, modelling Python `s.discard(a)`. -/
def removeL (l : List Nat) (a : Nat) : List Nat :=
  l.filter (fun x => x != a)

/-- The mutable bookkeeping of one `SyncService` process: `syncing_accounts`
(the RunningSet) and the three monitor dictionaries (lines 57-60). -/
structure SyncState where
  syncing_accounts : List Nat
  email_sync_monitors : List (Nat × Nat)
  contact_sync_monitors : List (Nat × Nat)
  event_sync_monitors : List (Nat × EventMon)
deriving DecidableEq

/-- The empty initial state built by `SyncService.__init__`. -/
def initState : SyncState := ⟨[], [], [], []⟩

/-- Configuration fixed at construction: the process identifier, the
`SYNC_STEAL_ACCOUNTS` flag and the `GOOGLE_PUSH_NOTIFICATIONS` feature
flag. -/
structure Config where
  process_identifier : String
  stealing_enabled : Bool
  use_google_push : Bool

/-- Modelled from the spec: the Work Assignment Client (`QueueClient` from
`inbox/scheduling/queue.py`, whose implementation is not included under
src/).  Per spec section 4.2 it maintains a mapping from account id to the
process identifier currently assigned to service it; `assigned()` returns
that mapping, `claimNext` atomically acquires ownership of one account,
and `unassign` releases ownership and is a no-op (not an error) if this
process does not currently own the account. -/
structure QueueState where
  assigned : List (Nat × String)
deriving DecidableEq

/-- Modelled from the spec: `unassign(accountId, processIdentifier)`
removes this process's ownership entry for the account (a no-op when no
such entry exists) and returns an acknowledgment. -/
def QueueState.unassign (q : QueueState) (id : Nat) (pid : String) :
    QueueState × Bool :=
  (⟨q.assigned.filter (fun p => !(p.1 == id && p.2 == pid))⟩,
   q.assigned.any (fun p => p.1 == id && p.2 == pid))

/-- Modelled from the spec: `claimNext(processIdentifier)` attempts to
acquire ownership of one account; the candidate (or none, when no work is
available) is chosen by the environment, and a successful claim records
this process as the account's owner. -/
def QueueState.claim_next (q : QueueState) (pid : String) (cand : Option Nat) :
    QueueState × Option Nat :=
  match cand with
  | none => (q, none)
  | some a => (⟨(a, pid) :: q.assigned.filter (fun p => !(p.1 == a))⟩, some a)

/-- Environment for constructing and starting one monitor: whether its
constructor raises, whether its `start()` raises, and the token naming the
constructed handle. -/
structure MonEnv where
  failCons : Bool
  failStart : Bool
  tok : Nat
deriving DecidableEq

/-- Environment for one `start_sync` call: the account row the database
query returns (none when the row is gone), the behaviour of the three
monitor constructions, and whether the session-scope commit raises after
the body completes. -/
structure StartEnv where
  account : Option Account
  email : MonEnv
  contacts : MonEnv
  events : MonEnv
  exitErr : Option Err
deriving DecidableEq

/-- Environment for one `stop_sync` call: the account row the re-read
returns, and whether the database commit of the stop bookkeeping raises. -/
structure StopEnv where
  account : Option Account
  dbErr : Option Err
deriving DecidableEq

/-- Result of `start_sync`: the new state, the emitted events, and the
exception (if any) that propagates to the caller. -/
structure StartResult where
  state : SyncState
  events : List Event
  err : Option Err
deriving DecidableEq

/-- Result of `stop_sync`: the new state, the queue state, the emitted
events, the propagated exception (if any), and the returned unassign
acknowledgment (none when an exception pre-empted the return). -/
structure StopResult where
  state : SyncState
  queue : QueueState
  events : List Event
  err : Option Err
  ret : Option Bool
deriving DecidableEq

/-- One capability block of `start_sync` (the pattern repeated at lines
150-153, 156-162 and 164-177): when the capability is enabled, construct
the monitor (recording nothing if the constructor raises), record the
handle via `record`, and start it (the handle stays recorded if `start()`
raises).  Returns the updated state and events plus whether an exception
was raised. -/
def stage (cond : Bool) (m : MonEnv) (record : SyncState → Nat → SyncState)
    (st : SyncState × List Event) : (SyncState × List Event) × Bool :=
  if cond then
    if m.failCons then (st, true)
    else
      let s' := record st.1 m.tok
      if m.failStart then ((s', st.2), true)
      else ((s', st.2 ++ [Event.monitorStart m.tok]), false)
  else (st, false)

/-- The tail of `start_sync` from line 164 on: the event-sync stage
(selecting the Google-push variant for gmail when the feature flag is on),
then on full success the sync-started marker and the addition of the id
to `syncing_accounts` (lines 179-181). -/
def eventsTail (cfg : Config) (account_id : Nat) (env : StartEnv) (acc : Account)
    (st : SyncState × List Event) : StartResult :=
  let google := cfg.use_google_push && acc.provider == "gmail"
  let r3 := stage (acc.provider_info_events && acc.sync_events) env.events
    (fun s t => { s with event_sync_monitors := setA s.event_sync_monitors acc.id ⟨t, google⟩ })
    st
  if r3.2 then ⟨r3.1.1, r3.1.2 ++ [.logError account_id], env.exitErr⟩
  else
    ⟨{ r3.1.1 with syncing_accounts := insertL r3.1.1.syncing_accounts acc.id },
     r3.1.2 ++ [.syncStartedMarker acc.id], env.exitErr⟩

/-- The tail of `start_sync` from line 156 on: the contact-sync stage,
then `eventsTail`. -/
def contactsTail (cfg : Config) (account_id : Nat) (env : StartEnv) (acc : Account)
    (st : SyncState × List Event) : StartResult :=
  let r2 := stage (acc.provider_info_contacts && acc.sync_contacts) env.contacts
    (fun s t => { s with contact_sync_monitors := setA s.contact_sync_monitors acc.id t })
    st
  if r2.2 then ⟨r2.1.1, r2.1.2 ++ [.logError account_id], env.exitErr⟩
  else eventsTail cfg account_id env acc r2.1

/-- `SyncService.start_sync` (lines 133-188).  Looks up the account; a
missing row is a logged no-op.  If the id is already in
`syncing_accounts`, logs and returns.  Otherwise sets the persisted
`sync_host` (line 149), then runs the email, contacts and events stages
in order; any exception during monitor construction or start is caught
and logged, abandoning the start.  On full success records the
sync-started marker and adds the id to `syncing_accounts`.  The
session-scope exit commit may raise after the body completes, which
propagates to the caller. -/
def start_sync (cfg : Config) (s : SyncState) (account_id : Nat)
    (env : StartEnv) : StartResult :=
  match env.account with
  | none => ⟨s, [.logNoSuchAccount account_id], none⟩
  | some acc =>
    if acc.id ∈ s.syncing_accounts then
      ⟨s, [.logAlreadyStarted account_id], env.exitErr⟩
    else
      let r1 := stage acc.sync_email env.email
        (fun st t => { st with email_sync_monitors := setA st.email_sync_monitors acc.id t })
        (s, [Event.setSyncHost acc.id cfg.process_identifier])
      if r1.2 then ⟨r1.1.1, r1.1.2 ++ [.logError account_id], env.exitErr⟩
      else contactsTail cfg account_id env acc r1.1

/-- `SyncService.stop_sync` (lines 190-224).  Kills and drops every
recorded monitor handle for the id, discards the id from
`syncing_accounts`, then re-reads the account: a missing row raises (the
source dereferences `acc.sync_should_run` on `None`); otherwise the
heartbeat is cleared when the account should no longer run, the
sync-stopped marker is persisted (a commit failure raises), and finally
the queue claim is released and its acknowledgment returned. -/
def stop_sync (cfg : Config) (s : SyncState) (q : QueueState)
    (account_id : Nat) (env : StopEnv) : StopResult :=
  let r1 := match lookupA s.email_sync_monitors account_id with
    | some tok =>
        ({ s with email_sync_monitors := delA s.email_sync_monitors account_id },
         [Event.monitorKill tok])
    | none => (s, ([] : List Event))
  let r2 := match lookupA r1.1.contact_sync_monitors account_id with
    | some tok =>
        ({ r1.1 with contact_sync_monitors := delA r1.1.contact_sync_monitors account_id },
         r1.2 ++ [Event.monitorKill tok])
    | none => r1
  let r3 := match lookupA r2.1.event_sync_monitors account_id with
    | some em =>
        ({ r2.1 with event_sync_monitors := delA r2.1.event_sync_monitors account_id },
         r2.2 ++ [Event.monitorKill em.tok])
    | none => r2
  let s4 := { r3.1 with syncing_accounts := removeL r3.1.syncing_accounts account_id }
  match env.account with
  | none => ⟨s4, q, r3.2, some Err.other, none⟩
  | some acc =>
    let ev4 := r3.2 ++ (if acc.sync_should_run then [] else [Event.clearHeartbeat acc.id])
      ++ [Event.syncStoppedMarker acc.id cfg.process_identifier]
    match env.dbErr with
    | some e => ⟨s4, q, ev4, some e, none⟩
    | none =>
      let u := q.unassign account_id cfg.process_identifier
      ⟨s4, u.1, ev4 ++ [Event.unassignCall account_id cfg.process_identifier],
       none, some u.2⟩

/-- `SyncService.accounts_to_sync` (lines 129-131): the ids whose assigned
process identifier equals this process, as a set (deduplicated). -/
def accounts_to_sync (pid : String) (q : QueueState) : List Nat :=
  ((q.assigned.filter (fun p => p.2 == pid)).map (fun p => p.1)).dedup

/-- Per-tick environment: the per-core CPU utilization sample, the
candidate the queue would hand to `claim_next`, and the per-account
collaborator behaviour for this tick's start and stop calls. -/
structure TickEnv where
  usage_per_cpu : List Rat
  claimCandidate : Option Nat
  startEnv : Nat → StartEnv
  stopEnv : Nat → StopEnv

/-- Result of one `poll` tick. -/
structure PollResult where
  state : SyncState
  queue : QueueState
  events : List Event
  err : Option Err

/-- The acquire phase of `poll` (lines 91-100): sample the CPU, compute
`overloaded_cpus = all(u > 90 for u in usage)`, and when stealing is
enabled and not every core is overloaded, call `claim_next`. -/
def acquirePhase (cfg : Config) (q : QueueState) (env : TickEnv) :
    QueueState × List Event :=
  let overloaded_cpus := env.usage_per_cpu.all (fun u => decide ((90 : Rat) < u))
  if cfg.stealing_enabled && !overloaded_cpus then
    ((QueueState.claim_next q cfg.process_identifier env.claimCandidate).1,
     [Event.claimNext cfg.process_identifier])
  else (q, [])

/-- The start loop of `poll` (lines 109-116): for each desired id not in
`syncing_accounts`, call `start_sync`; an `OperationalError` is caught
and logged, any other propagated exception aborts the tick. -/
def runStarts (cfg : Config) (s : SyncState) (ev : List Event)
    (ids : List Nat) (env : Nat → StartEnv) :
    SyncState × List Event × Option Err :=
  match ids with
  | [] => (s, ev, none)
  | id :: rest =>
    if id ∈ s.syncing_accounts then runStarts cfg s ev rest env
    else
      let r := start_sync cfg s id (env id)
      match r.err with
      | none => runStarts cfg r.state (ev ++ [Event.startCall id] ++ r.events) rest env
      | some Err.operational =>
          runStarts cfg r.state (ev ++ [Event.startCall id] ++ r.events ++ [Event.logDbError id]) rest env
      | some Err.other => (r.state, ev ++ [Event.startCall id] ++ r.events, some Err.other)

/-- The stop loop of `poll` (lines 118-127): for each id to stop, call
`stop_sync`; an `OperationalError` is caught and logged, any other
propagated exception aborts the tick. -/
def runStops (cfg : Config) (s : SyncState) (q : QueueState)
    (ev : List Event) (ids : List Nat) (env : Nat → StopEnv) : PollResult :=
  match ids with
  | [] => ⟨s, q, ev, none⟩
  | id :: rest =>
    let r := stop_sync cfg s q id (env id)
    match r.err with
    | none => runStops cfg r.state r.queue (ev ++ [Event.stopCall id] ++ r.events) rest env
    | some Err.operational =>
        runStops cfg r.state r.queue (ev ++ [Event.stopCall id] ++ r.events ++ [Event.logDbError id]) rest env
    | some Err.other => ⟨r.state, r.queue, ev ++ [Event.stopCall id] ++ r.events, some Err.other⟩

/-- The desired set a tick computes: `accounts_to_sync` read after the
acquire phase, exactly as `poll` does. -/
def desiredSet (cfg : Config) (q : QueueState) (env : TickEnv) : List Nat :=
  accounts_to_sync cfg.process_identifier (acquirePhase cfg q env).1

/-- `SyncService.poll` (lines 86-127): acquire phase, then the converge
phase diffing the freshly-read desired set against `syncing_accounts`,
starting the missing accounts and stopping the no-longer-desired ones. -/
def poll (cfg : Config) (s : SyncState) (q : QueueState) (env : TickEnv) :
    PollResult :=
  let aq := acquirePhase cfg q env
  let start_accounts := accounts_to_sync cfg.process_identifier aq.1
  let rs := runStarts cfg s aq.2 start_accounts env.startEnv
  match rs.2.2 with
  | some e => ⟨rs.1, aq.1, rs.2.1, some e⟩
  | none =>
    let stop_accounts := rs.1.syncing_accounts.filter
      (fun id => !(start_accounts.contains id))
    runStops cfg rs.1 aq.1 rs.2.1 stop_accounts env.stopEnv

/-- One supervisor operation: a start or a stop request for one id,
together with the collaborator behaviour it encounters. -/
inductive Op where
  | start (id : Nat) (env : StartEnv)
  | stop (id : Nat) (env : StopEnv)

/-- Apply one supervisor operation to the process state and queue. -/
def applyOp (cfg : Config) (sq : SyncState × QueueState) (op : Op) :
    SyncState × QueueState :=
  match op with
  | .start id env => ((start_sync cfg sq.1 id env).state, sq.2)
  | .stop id env =>
      let r := stop_sync cfg sq.1 sq.2 id env
      (r.state, r.queue)

/-- Run a sequence of supervisor operations from the initial empty state. -/
def runOps (cfg : Config) (q0 : QueueState) (ops : List Op) :
    SyncState × QueueState :=
  ops.foldl (applyOp cfg) (initState, q0)

/-- At least one monitor handle is recorded for the id. -/
def hasHandle (s : SyncState) (id : Nat) : Prop :=
  (lookupA s.email_sync_monitors id).isSome = true ∨
  (lookupA s.contact_sync_monitors id).isSome = true ∨
  (lookupA s.event_sync_monitors id).isSome = true

/-- The operation is a start whose account row exists, names this id, and
has none of the three capability flags applicable. -/
def noCapsOp : Op → Nat → Prop
  | .start _ env, id => ∃ acc, env.account = some acc ∧ acc.id = id ∧
      acc.sync_email = false ∧
      (acc.provider_info_contacts && acc.sync_contacts) = false ∧
      (acc.provider_info_events && acc.sync_events) = false
  | .stop _ _, _ => False

/-- None of a start call's monitor constructions or starts raises for the
stages this account actually runs. -/
def startSucceeds (acc : Account) (env : StartEnv) : Bool :=
  !(acc.sync_email && (env.email.failCons || env.email.failStart)) &&
  !((acc.provider_info_contacts && acc.sync_contacts) &&
    (env.contacts.failCons || env.contacts.failStart)) &&
  !((acc.provider_info_events && acc.sync_events) &&
    (env.events.failCons || env.events.failStart))

/-- A per-tick start environment is well formed when the account row the
database returns for an id actually carries that id. -/
def WFStartEnv (env : Nat → StartEnv) : Prop :=
  ∀ id acc, (env id).account = some acc → acc.id = id

/-- Events that only the converge loop itself emits, never the
supervisor operations. -/
def ctrlEvent : Event → Prop
  | .startCall _ => True
  | .stopCall _ => True
  | .claimNext _ => True
  | _ => False

/-- The in-memory state every `stop_sync` call leaves behind (the kill
block always deletes whatever handles exist and discards the id). -/
def stoppedState (s : SyncState) (id : Nat) : SyncState :=
  ⟨removeL s.syncing_accounts id, delA s.email_sync_monitors id,
   delA s.contact_sync_monitors id, delA s.event_sync_monitors id⟩

/-- The kill calls `stop_sync` issues: one per recorded handle. -/
def killEvents (s : SyncState) (id : Nat) : List Event :=
  (match lookupA s.email_sync_monitors id with
   | some t => [Event.monitorKill t]
   | none => []) ++
  (match lookupA s.contact_sync_monitors id with
   | some t => [Event.monitorKill t]
   | none => []) ++
  (match lookupA s.event_sync_monitors id with
   | some em => [Event.monitorKill em.tok]
   | none => [])

/-- Common concrete fixtures for witnesses: a process configuration and a
family of well-behaved email-only accounts and environments. -/
def cfgW : Config := ⟨"hostA:0", true, false⟩

def accW (id : Nat) : Account := ⟨id, true, false, false, "generic", false, false, true⟩

def envOkW (id : Nat) : StartEnv :=
  ⟨some (accW id), ⟨false, false, 100 + id⟩, ⟨false, false, 200 + id⟩,
   ⟨false, false, 300 + id⟩, none⟩

def cfgW1 : Config := ⟨"hostA:0", false, false⟩

def sW1 : SyncState := ⟨[1, 2, 3], [(1, 11), (2, 12), (3, 13)], [], []⟩

def qW1 : QueueState := ⟨[(2, "hostA:0"), (3, "hostA:0"), (4, "hostA:0")]⟩

def envW1 : TickEnv := ⟨[], none, fun j => envOkW j, fun j => ⟨some (accW j), none⟩⟩

def envEmptyCpu : TickEnv :=
  ⟨[], some 5, fun j => envOkW j, fun j => ⟨some (accW j), none⟩⟩

def accFull : Account := ⟨7, true, true, true, "gmail", true, true, true⟩

def envFull : StartEnv :=
  ⟨some accFull, ⟨false, false, 100⟩, ⟨false, false, 200⟩, ⟨false, false, 300⟩, none⟩

def cfgPush : Config := ⟨"hostA:0", true, true⟩

def sC4 : SyncState := initState

def qC4 : QueueState := ⟨[(1, "hostA:0")]⟩

def envC4 : StopEnv := ⟨some (accW 1), none⟩

def sC4b : SyncState := initState

def qC4b : QueueState := ⟨[(1, "hostA:0")]⟩

def sC5 : SyncState := ⟨[7], [], [], []⟩

def envC5 : StopEnv := ⟨none, none⟩

def envFailC6 : StartEnv :=
  ⟨some ⟨9, true, true, false, "generic", true, false, true⟩,
   ⟨false, false, 100⟩, ⟨true, false, 200⟩, ⟨false, false, 300⟩, none⟩

def qC6 : QueueState := ⟨[(9, "hostA:0")]⟩

def envTickC6 : TickEnv := ⟨[], none, fun j => envOkW j, fun j => ⟨some (accW j), none⟩⟩

def sC7 : SyncState := ⟨[5], [(5, 50)], [(5, 51)], [(5, ⟨52, false⟩)]⟩

def qC7 : QueueState := ⟨[(5, "hostA:0"), (6, "hostB:0")]⟩

def envC7 : StopEnv := ⟨some ⟨5, true, true, true, "generic", true, true, false⟩, none⟩

def s8 : SyncState := ⟨[1, 2], [], [], []⟩

def env8 : TickEnv :=
  ⟨[], none, fun j => envOkW j,
   fun j => if j = 1 then ⟨none, none⟩ else ⟨some (accW j), none⟩⟩

def env8b : TickEnv :=
  ⟨[], none, fun j => envOkW j,
   fun j => ⟨some (accW j), some Err.operational⟩⟩

def opsW9 : List Op := [Op.start 1 (envOkW 1), Op.start 2 (envOkW 2), Op.stop 2 ⟨some (accW 2), none⟩]

def accX : Account := ⟨10, true, true, false, "generic", true, false, true⟩

def envX1 : StartEnv :=
  ⟨some accX, ⟨false, false, 100⟩, ⟨true, false, 201⟩, ⟨false, false, 301⟩, none⟩

def envX2 : StartEnv :=
  ⟨some accX, ⟨false, false, 102⟩, ⟨false, false, 202⟩, ⟨false, false, 302⟩, none⟩

theorem lookupA_setA_self {α : Type} (l : List (Nat × α)) (k : Nat) (v : α) :
    lookupA (setA l k v) k = some v := by
  simp [setA, lookupA]

theorem lookupA_delA {α : Type} (l : List (Nat × α)) (k k' : Nat) :
    lookupA (delA l k) k' = if k' = k then none else lookupA l k' := by
  induction l with
  | nil => simp [delA, lookupA]
  | cons p l ih =>
    simp only [delA]
    split
    · next h =>
      rw [ih]
      by_cases hk : k' = k
      · simp [hk]
      · have hp : p.1 ≠ k' := by rw [h]; exact fun e => hk e.symm
        simp [hk, lookupA, hp]
    · next h =>
      simp only [lookupA]
      by_cases h2 : p.1 = k'
      · have hk : ¬ k' = k := fun e => h (h2.trans e)
        simp [h2, hk]
      · simp [h2, ih]

theorem lookupA_setA {α : Type} (l : List (Nat × α)) (k k' : Nat) (v : α) :
    lookupA (setA l k v) k' = if k' = k then some v else lookupA l k' := by
  by_cases h : k' = k
  · subst h; simp [lookupA_setA_self]
  · have hk : k ≠ k' := fun e => h e.symm
    simp [setA, lookupA, hk, lookupA_delA, h]

theorem isSome_setA {α : Type} (l : List (Nat × α)) (a k : Nat) (v : α)
    (h : (lookupA l k).isSome = true) : (lookupA (setA l a v) k).isSome = true := by
  rw [lookupA_setA]
  split <;> simp [h]

theorem delA_eq_self {α : Type} (l : List (Nat × α)) (k : Nat)
    (h : lookupA l k = none) : delA l k = l := by
  induction l with
  | nil => rfl
  | cons p l ih =>
    rw [lookupA] at h
    by_cases hp : p.1 = k
    · rw [if_pos hp] at h; cases h
    · rw [if_neg hp] at h
      simp [delA, hp, ih h]

theorem mem_insertL (l : List Nat) (a b : Nat) :
    b ∈ insertL l a ↔ b ∈ l ∨ b = a := by
  unfold insertL
  split
  · next h =>
    constructor
    · exact fun hb => Or.inl hb
    · rintro (hb | rfl)
      · exact hb
      · exact h
  · simp [List.mem_cons]
    tauto

theorem mem_removeL (l : List Nat) (a b : Nat) :
    b ∈ removeL l a ↔ b ∈ l ∧ b ≠ a := by
  simp [removeL, List.mem_filter, bne_iff_ne]

theorem stage_snd (cond : Bool) (m : MonEnv) (rec : SyncState → Nat → SyncState)
    (st : SyncState × List Event) :
    (stage cond m rec st).2 = (cond && (m.failCons || m.failStart)) := by
  unfold stage
  cases cond <;> cases h1 : m.failCons <;> cases h2 : m.failStart <;> simp

theorem stage_nofail (cond : Bool) (m : MonEnv) (rec : SyncState → Nat → SyncState)
    (st : SyncState × List Event)
    (h : (cond && (m.failCons || m.failStart)) = false) :
    stage cond m rec st =
      ((if cond then rec st.1 m.tok else st.1,
        st.2 ++ (if cond then [Event.monitorStart m.tok] else [])), false) := by
  unfold stage
  cases cond <;> cases h1 : m.failCons <;> cases h2 : m.failStart <;> simp_all

theorem stage_fail (cond : Bool) (m : MonEnv) (rec : SyncState → Nat → SyncState)
    (st : SyncState × List Event)
    (h : (cond && (m.failCons || m.failStart)) = true) :
    ((stage cond m rec st).1.1 = st.1 ∨ (stage cond m rec st).1.1 = rec st.1 m.tok) ∧
    (stage cond m rec st).1.2 = st.2 := by
  unfold stage
  cases cond <;> cases h1 : m.failCons <;> cases h2 : m.failStart <;> simp_all

theorem stage_events (cond : Bool) (m : MonEnv) (rec : SyncState → Nat → SyncState)
    (st : SyncState × List Event) :
    (stage cond m rec st).1.2 = st.2 ∨
    (stage cond m rec st).1.2 = st.2 ++ [Event.monitorStart m.tok] := by
  unfold stage
  cases cond <;> cases h1 : m.failCons <;> cases h2 : m.failStart <;> simp

theorem eventsTail_fail (cfg : Config) (id : Nat) (env : StartEnv) (acc : Account)
    (st : SyncState × List Event)
    (hC : ((acc.provider_info_events && acc.sync_events) &&
      (env.events.failCons || env.events.failStart)) = true) :
    ((eventsTail cfg id env acc st).state = st.1 ∨
     (eventsTail cfg id env acc st).state =
       { st.1 with event_sync_monitors := setA st.1.event_sync_monitors acc.id ⟨env.events.tok, cfg.use_google_push && acc.provider == "gmail"⟩ }) ∧
    (eventsTail cfg id env acc st).events = st.2 ++ [Event.logError id] ∧
    (eventsTail cfg id env acc st).err = env.exitErr := by
  obtain ⟨hst, hev⟩ := stage_fail (acc.provider_info_events && acc.sync_events) env.events
    (fun s t => { s with event_sync_monitors := setA s.event_sync_monitors acc.id ⟨t, cfg.use_google_push && acc.provider == "gmail"⟩ }) st hC
  unfold eventsTail
  simp only [stage_snd, hC, if_true, hev]
  exact ⟨by simpa using hst, by simp, trivial⟩

theorem eventsTail_ok (cfg : Config) (id : Nat) (env : StartEnv) (acc : Account)
    (st : SyncState × List Event)
    (hC : ((acc.provider_info_events && acc.sync_events) &&
      (env.events.failCons || env.events.failStart)) = false) :
    eventsTail cfg id env acc st =
      ⟨{ (if acc.provider_info_events && acc.sync_events then
            { st.1 with event_sync_monitors := setA st.1.event_sync_monitors acc.id ⟨env.events.tok, cfg.use_google_push && acc.provider == "gmail"⟩ }
          else st.1) with
          syncing_accounts := insertL st.1.syncing_accounts acc.id },
       st.2 ++ (if acc.provider_info_events && acc.sync_events then
         [Event.monitorStart env.events.tok] else []) ++ [Event.syncStartedMarker acc.id],
       env.exitErr⟩ := by
  unfold eventsTail
  simp only [stage_nofail _ _ _ _ hC]
  cases hV : (acc.provider_info_events && acc.sync_events) <;> simp_all

theorem contactsTail_fail (cfg : Config) (id : Nat) (env : StartEnv) (acc : Account)
    (st : SyncState × List Event)
    (hB : ((acc.provider_info_contacts && acc.sync_contacts) &&
      (env.contacts.failCons || env.contacts.failStart)) = true) :
    ((contactsTail cfg id env acc st).state = st.1 ∨
     (contactsTail cfg id env acc st).state =
       { st.1 with contact_sync_monitors := setA st.1.contact_sync_monitors acc.id env.contacts.tok }) ∧
    (contactsTail cfg id env acc st).events = st.2 ++ [Event.logError id] ∧
    (contactsTail cfg id env acc st).err = env.exitErr := by
  obtain ⟨hst, hev⟩ := stage_fail (acc.provider_info_contacts && acc.sync_contacts) env.contacts
    (fun s t => { s with contact_sync_monitors := setA s.contact_sync_monitors acc.id t }) st hB
  unfold contactsTail
  simp only [stage_snd, hB, if_true, hev]
  exact ⟨by simpa using hst, by simp, trivial⟩

theorem contactsTail_ok (cfg : Config) (id : Nat) (env : StartEnv) (acc : Account)
    (st : SyncState × List Event)
    (hB : ((acc.provider_info_contacts && acc.sync_contacts) &&
      (env.contacts.failCons || env.contacts.failStart)) = false) :
    contactsTail cfg id env acc st =
      eventsTail cfg id env acc
        ((if acc.provider_info_contacts && acc.sync_contacts then
            { st.1 with contact_sync_monitors := setA st.1.contact_sync_monitors acc.id env.contacts.tok }
          else st.1),
         st.2 ++ (if acc.provider_info_contacts && acc.sync_contacts then
           [Event.monitorStart env.contacts.tok] else [])) := by
  unfold contactsTail
  simp only [stage_nofail _ _ _ _ hB]
  cases hCt : (acc.provider_info_contacts && acc.sync_contacts) <;> simp_all

theorem start_sync_none (cfg : Config) (s : SyncState) (id : Nat) (env : StartEnv)
    (h : env.account = none) :
    start_sync cfg s id env = ⟨s, [.logNoSuchAccount id], none⟩ := by
  simp [start_sync, h]

theorem start_sync_already (cfg : Config) (s : SyncState) (id : Nat) (env : StartEnv)
    (acc : Account) (h : env.account = some acc) (hmem : acc.id ∈ s.syncing_accounts) :
    start_sync cfg s id env = ⟨s, [.logAlreadyStarted id], env.exitErr⟩ := by
  simp [start_sync, h, hmem]

theorem start_sync_emailFail (cfg : Config) (s : SyncState) (id : Nat) (env : StartEnv)
    (acc : Account) (h : env.account = some acc) (hmem : acc.id ∉ s.syncing_accounts)
    (hA : (acc.sync_email && (env.email.failCons || env.email.failStart)) = true) :
    ((start_sync cfg s id env).state = s ∨
     (start_sync cfg s id env).state =
       { s with email_sync_monitors := setA s.email_sync_monitors acc.id env.email.tok }) ∧
    (start_sync cfg s id env).events =
      [Event.setSyncHost acc.id cfg.process_identifier] ++ [Event.logError id] ∧
    (start_sync cfg s id env).err = env.exitErr := by
  obtain ⟨hst, hev⟩ := stage_fail acc.sync_email env.email
    (fun st t => { st with email_sync_monitors := setA st.email_sync_monitors acc.id t })
    (s, [Event.setSyncHost acc.id cfg.process_identifier]) hA
  simp only [start_sync, h, if_neg hmem, stage_snd, hA, if_true, hev]
  exact ⟨by simpa using hst, by simp, trivial⟩

theorem start_sync_noEmailFail (cfg : Config) (s : SyncState) (id : Nat) (env : StartEnv)
    (acc : Account) (h : env.account = some acc) (hmem : acc.id ∉ s.syncing_accounts)
    (hA : (acc.sync_email && (env.email.failCons || env.email.failStart)) = false) :
    start_sync cfg s id env =
      contactsTail cfg id env acc
        ((if acc.sync_email then
            { s with email_sync_monitors := setA s.email_sync_monitors acc.id env.email.tok }
          else s),
         [Event.setSyncHost acc.id cfg.process_identifier] ++
           (if acc.sync_email then [Event.monitorStart env.email.tok] else [])) := by
  simp only [start_sync, h, if_neg hmem, stage_nofail _ _ _ _ hA]
  cases hE : acc.sync_email <;> simp_all

theorem startSucceeds_parts (acc : Account) (env : StartEnv)
    (hok : startSucceeds acc env = true) :
    (acc.sync_email && (env.email.failCons || env.email.failStart)) = false ∧
    ((acc.provider_info_contacts && acc.sync_contacts) &&
      (env.contacts.failCons || env.contacts.failStart)) = false ∧
    ((acc.provider_info_events && acc.sync_events) &&
      (env.events.failCons || env.events.failStart)) = false := by
  refine ⟨?_, ?_, ?_⟩ <;>
    · revert hok
      unfold startSucceeds
      cases (acc.sync_email && (env.email.failCons || env.email.failStart)) <;>
        cases ((acc.provider_info_contacts && acc.sync_contacts) &&
          (env.contacts.failCons || env.contacts.failStart)) <;>
        cases ((acc.provider_info_events && acc.sync_events) &&
          (env.events.failCons || env.events.failStart)) <;> simp

theorem start_sync_success (cfg : Config) (s : SyncState) (id : Nat) (env : StartEnv)
    (acc : Account) (h : env.account = some acc) (hmem : acc.id ∉ s.syncing_accounts)
    (hok : startSucceeds acc env = true) :
    start_sync cfg s id env =
      ⟨⟨insertL s.syncing_accounts acc.id,
        (if acc.sync_email then setA s.email_sync_monitors acc.id env.email.tok
         else s.email_sync_monitors),
        (if acc.provider_info_contacts && acc.sync_contacts then
           setA s.contact_sync_monitors acc.id env.contacts.tok
         else s.contact_sync_monitors),
        (if acc.provider_info_events && acc.sync_events then
           setA s.event_sync_monitors acc.id
             ⟨env.events.tok, cfg.use_google_push && acc.provider == "gmail"⟩
         else s.event_sync_monitors)⟩,
       [Event.setSyncHost acc.id cfg.process_identifier] ++
         (if acc.sync_email then [Event.monitorStart env.email.tok] else []) ++
         (if acc.provider_info_contacts && acc.sync_contacts then
            [Event.monitorStart env.contacts.tok] else []) ++
         (if acc.provider_info_events && acc.sync_events then
            [Event.monitorStart env.events.tok] else []) ++
         [Event.syncStartedMarker acc.id],
       env.exitErr⟩ := by
  obtain ⟨hA, hB, hC⟩ := startSucceeds_parts acc env hok
  rw [start_sync_noEmailFail cfg s id env acc h hmem hA, contactsTail_ok _ _ _ _ _ hB,
    eventsTail_ok _ _ _ _ _ hC]
  cases hE : acc.sync_email <;>
    cases hCt : (acc.provider_info_contacts && acc.sync_contacts) <;>
      cases hVt : (acc.provider_info_events && acc.sync_events) <;> simp_all

theorem hasHandle_setA_email (s : SyncState) (k a t : Nat) (h : hasHandle s k) :
    hasHandle { s with email_sync_monitors := setA s.email_sync_monitors a t } k := by
  unfold hasHandle at h ⊢
  rcases h with h | h | h
  · exact Or.inl (isSome_setA _ _ _ _ h)
  · exact Or.inr (Or.inl h)
  · exact Or.inr (Or.inr h)

theorem hasHandle_setA_contact (s : SyncState) (k a t : Nat) (h : hasHandle s k) :
    hasHandle { s with contact_sync_monitors := setA s.contact_sync_monitors a t } k := by
  unfold hasHandle at h ⊢
  rcases h with h | h | h
  · exact Or.inl h
  · exact Or.inr (Or.inl (isSome_setA _ _ _ _ h))
  · exact Or.inr (Or.inr h)

theorem hasHandle_setA_event (s : SyncState) (k a : Nat) (v : EventMon) (h : hasHandle s k) :
    hasHandle { s with event_sync_monitors := setA s.event_sync_monitors a v } k := by
  unfold hasHandle at h ⊢
  rcases h with h | h | h
  · exact Or.inl h
  · exact Or.inr (Or.inl h)
  · exact Or.inr (Or.inr (isSome_setA _ _ _ _ h))

theorem eventsTail_facts (cfg : Config) (id : Nat) (env : StartEnv) (acc : Account)
    (st : SyncState × List Event) :
    (∀ k, k ∈ (eventsTail cfg id env acc st).state.syncing_accounts →
      k ∈ st.1.syncing_accounts ∨ k = acc.id) ∧
    (∀ k, k ∈ st.1.syncing_accounts →
      k ∈ (eventsTail cfg id env acc st).state.syncing_accounts) ∧
    (∀ k, hasHandle st.1 k → hasHandle (eventsTail cfg id env acc st).state k) ∧
    (∀ e, e ∈ (eventsTail cfg id env acc st).events → e ∈ st.2 ∨ ¬ ctrlEvent e) := by
  by_cases hC : ((acc.provider_info_events && acc.sync_events) &&
      (env.events.failCons || env.events.failStart)) = true
  · obtain ⟨hst, hev, _⟩ := eventsTail_fail cfg id env acc st hC
    refine ⟨?_, ?_, ?_, ?_⟩
    · intro k hk
      rcases hst with h1 | h1 <;> rw [h1] at hk
      · exact Or.inl hk
      · exact Or.inl hk
    · intro k hk
      rcases hst with h1 | h1 <;> rw [h1] <;> exact hk
    · intro k hk
      rcases hst with h1 | h1 <;> rw [h1]
      · exact hk
      · exact hasHandle_setA_event _ _ _ _ hk
    · intro e he
      rw [hev] at he
      rcases List.mem_append.mp he with h1 | h1
      · exact Or.inl h1
      · simp at h1
        subst h1
        exact Or.inr (by simp [ctrlEvent])
  · rw [Bool.not_eq_true] at hC
    rw [eventsTail_ok cfg id env acc st hC]
    refine ⟨?_, ?_, ?_, ?_⟩
    · intro k hk
      simp only at hk
      rw [mem_insertL] at hk
      exact hk
    · intro k hk
      simp only
      rw [mem_insertL]
      exact Or.inl hk
    · intro k hk
      simp only [hasHandle] at hk ⊢
      split
      · rcases hk with h | h | h
        · exact Or.inl h
        · exact Or.inr (Or.inl h)
        · exact Or.inr (Or.inr (isSome_setA _ _ _ _ h))
      · exact hk
    · intro e he
      simp only [List.mem_append] at he
      rcases he with (he | he) | he
      · exact Or.inl he
      · split at he <;> simp at he
        subst he
        exact Or.inr (by simp [ctrlEvent])
      · simp at he
        subst he
        exact Or.inr (by simp [ctrlEvent])

theorem contactsTail_facts (cfg : Config) (id : Nat) (env : StartEnv) (acc : Account)
    (st : SyncState × List Event) :
    (∀ k, k ∈ (contactsTail cfg id env acc st).state.syncing_accounts →
      k ∈ st.1.syncing_accounts ∨ k = acc.id) ∧
    (∀ k, k ∈ st.1.syncing_accounts →
      k ∈ (contactsTail cfg id env acc st).state.syncing_accounts) ∧
    (∀ k, hasHandle st.1 k → hasHandle (contactsTail cfg id env acc st).state k) ∧
    (∀ e, e ∈ (contactsTail cfg id env acc st).events → e ∈ st.2 ∨ ¬ ctrlEvent e) := by
  by_cases hB : ((acc.provider_info_contacts && acc.sync_contacts) &&
      (env.contacts.failCons || env.contacts.failStart)) = true
  · obtain ⟨hst, hev, _⟩ := contactsTail_fail cfg id env acc st hB
    refine ⟨?_, ?_, ?_, ?_⟩
    · intro k hk
      rcases hst with h1 | h1 <;> rw [h1] at hk <;> exact Or.inl hk
    · intro k hk
      rcases hst with h1 | h1 <;> rw [h1] <;> exact hk
    · intro k hk
      rcases hst with h1 | h1 <;> rw [h1]
      · exact hk
      · exact hasHandle_setA_contact _ _ _ _ hk
    · intro e he
      rw [hev] at he
      rcases List.mem_append.mp he with h1 | h1
      · exact Or.inl h1
      · simp at h1
        subst h1
        exact Or.inr (by simp [ctrlEvent])
  · rw [Bool.not_eq_true] at hB
    rw [contactsTail_ok cfg id env acc st hB]
    obtain ⟨e1, e2, e3, e4⟩ := eventsTail_facts cfg id env acc
      ((if acc.provider_info_contacts && acc.sync_contacts then
          { st.1 with contact_sync_monitors := setA st.1.contact_sync_monitors acc.id env.contacts.tok }
        else st.1),
       st.2 ++ (if acc.provider_info_contacts && acc.sync_contacts then
         [Event.monitorStart env.contacts.tok] else []))
    refine ⟨?_, ?_, ?_, ?_⟩
    · intro k hk
      rcases e1 k hk with h1 | h1
      · split at h1
        · exact Or.inl h1
        · exact Or.inl h1
      · exact Or.inr h1
    · intro k hk
      refine e2 k ?_
      split
      · exact hk
      · exact hk
    · intro k hk
      refine e3 k ?_
      split
      · exact hasHandle_setA_contact _ _ _ _ hk
      · exact hk
    · intro e he
      rcases e4 e he with h1 | h1
      · rcases List.mem_append.mp h1 with h2 | h2
        · exact Or.inl h2
        · split at h2 <;> simp at h2
          subst h2
          exact Or.inr (by simp [ctrlEvent])
      · exact Or.inr h1

theorem start_sync_facts (cfg : Config) (s : SyncState) (id : Nat) (env : StartEnv) :
    (∀ k, k ∈ (start_sync cfg s id env).state.syncing_accounts →
      k ∈ s.syncing_accounts ∨ ∃ acc, env.account = some acc ∧ k = acc.id) ∧
    (∀ k, k ∈ s.syncing_accounts →
      k ∈ (start_sync cfg s id env).state.syncing_accounts) ∧
    (∀ k, hasHandle s k → hasHandle (start_sync cfg s id env).state k) ∧
    (∀ e, e ∈ (start_sync cfg s id env).events → ¬ ctrlEvent e) := by
  cases henv : env.account with
  | none =>
    rw [start_sync_none cfg s id env henv]
    refine ⟨fun k hk => Or.inl hk, fun k hk => hk, fun k hk => hk, ?_⟩
    intro e he
    simp at he
    subst he
    simp [ctrlEvent]
  | some acc =>
    by_cases hmem : acc.id ∈ s.syncing_accounts
    · rw [start_sync_already cfg s id env acc henv hmem]
      refine ⟨fun k hk => Or.inl hk, fun k hk => hk, fun k hk => hk, ?_⟩
      intro e he
      simp at he
      subst he
      simp [ctrlEvent]
    · by_cases hA : (acc.sync_email && (env.email.failCons || env.email.failStart)) = true
      · obtain ⟨hst, hev, _⟩ := start_sync_emailFail cfg s id env acc henv hmem hA
        refine ⟨?_, ?_, ?_, ?_⟩
        · intro k hk
          rcases hst with h1 | h1 <;> rw [h1] at hk <;> exact Or.inl hk
        · intro k hk
          rcases hst with h1 | h1 <;> rw [h1] <;> exact hk
        · intro k hk
          rcases hst with h1 | h1 <;> rw [h1]
          · exact hk
          · exact hasHandle_setA_email _ _ _ _ hk
        · intro e he
          rw [hev] at he
          simp at he
          rcases he with he | he <;> subst he <;> simp [ctrlEvent]
      · rw [Bool.not_eq_true] at hA
        rw [start_sync_noEmailFail cfg s id env acc henv hmem hA]
        obtain ⟨e1, e2, e3, e4⟩ := contactsTail_facts cfg id env acc
          ((if acc.sync_email then
              { s with email_sync_monitors := setA s.email_sync_monitors acc.id env.email.tok }
            else s),
           [Event.setSyncHost acc.id cfg.process_identifier] ++
             (if acc.sync_email then [Event.monitorStart env.email.tok] else []))
        refine ⟨?_, ?_, ?_, ?_⟩
        · intro k hk
          rcases e1 k hk with h1 | h1
          · split at h1
            · exact Or.inl h1
            · exact Or.inl h1
          · exact Or.inr ⟨acc, rfl, h1⟩
        · intro k hk
          refine e2 k ?_
          split
          · exact hk
          · exact hk
        · intro k hk
          refine e3 k ?_
          split
          · exact hasHandle_setA_email _ _ _ _ hk
          · exact hk
        · intro e he
          rcases e4 e he with h1 | h1
          · rcases List.mem_append.mp h1 with h2 | h2
            · simp at h2
              subst h2
              simp [ctrlEvent]
            · split at h2 <;> simp at h2
              subst h2
              simp [ctrlEvent]
          · exact h1

theorem contactsTail_abandoned (cfg : Config) (id : Nat) (env : StartEnv) (acc : Account)
    (st : SyncState × List Event)
    (hm : ∀ a, Event.syncStartedMarker a ∉ st.2)
    (hfail : ((acc.provider_info_contacts && acc.sync_contacts) &&
        (env.contacts.failCons || env.contacts.failStart)) = true ∨
      ((acc.provider_info_events && acc.sync_events) &&
        (env.events.failCons || env.events.failStart)) = true) :
    (contactsTail cfg id env acc st).state.syncing_accounts = st.1.syncing_accounts ∧
    Event.logError id ∈ (contactsTail cfg id env acc st).events ∧
    (∀ a, Event.syncStartedMarker a ∉ (contactsTail cfg id env acc st).events) ∧
    (contactsTail cfg id env acc st).err = env.exitErr := by
  by_cases hB : ((acc.provider_info_contacts && acc.sync_contacts) &&
      (env.contacts.failCons || env.contacts.failStart)) = true
  · obtain ⟨hst, hev, herr⟩ := contactsTail_fail cfg id env acc st hB
    refine ⟨?_, ?_, ?_, herr⟩
    · rcases hst with h1 | h1 <;> rw [h1]
    · rw [hev]; simp
    · intro a
      rw [hev]
      simp only [List.mem_append]
      rintro (h1 | h1)
      · exact hm a h1
      · simp at h1
  · rw [Bool.not_eq_true] at hB
    have hC : ((acc.provider_info_events && acc.sync_events) &&
        (env.events.failCons || env.events.failStart)) = true := by
      rcases hfail with h1 | h1
      · rw [h1] at hB; cases hB
      · exact h1
    rw [contactsTail_ok cfg id env acc st hB]
    obtain ⟨hst, hev, herr⟩ := eventsTail_fail cfg id env acc
      ((if acc.provider_info_contacts && acc.sync_contacts then
          { st.1 with contact_sync_monitors := setA st.1.contact_sync_monitors acc.id env.contacts.tok }
        else st.1),
       st.2 ++ (if acc.provider_info_contacts && acc.sync_contacts then
         [Event.monitorStart env.contacts.tok] else [])) hC
    refine ⟨?_, ?_, ?_, herr⟩
    · rcases hst with h1 | h1 <;> rw [h1] <;> split <;> rfl
    · rw [hev]; simp
    · intro a
      rw [hev]
      simp only [List.mem_append]
      rintro ((h1 | h1) | h1)
      · exact hm a h1
      · split at h1 <;> simp at h1
      · simp at h1

theorem start_sync_abandoned (cfg : Config) (s : SyncState) (id : Nat) (env : StartEnv)
    (acc : Account) (h : env.account = some acc) (hmem : acc.id ∉ s.syncing_accounts)
    (hfail : startSucceeds acc env = false) :
    (start_sync cfg s id env).state.syncing_accounts = s.syncing_accounts ∧
    Event.logError id ∈ (start_sync cfg s id env).events ∧
    (∀ a, Event.syncStartedMarker a ∉ (start_sync cfg s id env).events) ∧
    (start_sync cfg s id env).err = env.exitErr := by
  by_cases hA : (acc.sync_email && (env.email.failCons || env.email.failStart)) = true
  · obtain ⟨hst, hev, herr⟩ := start_sync_emailFail cfg s id env acc h hmem hA
    refine ⟨?_, ?_, ?_, herr⟩
    · rcases hst with h1 | h1 <;> rw [h1]
    · rw [hev]; simp
    · intro a
      rw [hev]
      simp
  · rw [Bool.not_eq_true] at hA
    have hBC : ((acc.provider_info_contacts && acc.sync_contacts) &&
        (env.contacts.failCons || env.contacts.failStart)) = true ∨
      ((acc.provider_info_events && acc.sync_events) &&
        (env.events.failCons || env.events.failStart)) = true := by
      by_cases hB : ((acc.provider_info_contacts && acc.sync_contacts) &&
          (env.contacts.failCons || env.contacts.failStart)) = true
      · exact Or.inl hB
      · rw [Bool.not_eq_true] at hB
        by_cases hC : ((acc.provider_info_events && acc.sync_events) &&
            (env.events.failCons || env.events.failStart)) = true
        · exact Or.inr hC
        · rw [Bool.not_eq_true] at hC
          exfalso
          unfold startSucceeds at hfail
          rw [hA, hB, hC] at hfail
          simp at hfail
    rw [start_sync_noEmailFail cfg s id env acc h hmem hA]
    obtain ⟨c1, c2, c3, c4⟩ := contactsTail_abandoned cfg id env acc
      ((if acc.sync_email then
          { s with email_sync_monitors := setA s.email_sync_monitors acc.id env.email.tok }
        else s),
       [Event.setSyncHost acc.id cfg.process_identifier] ++
         (if acc.sync_email then [Event.monitorStart env.email.tok] else []))
      (by
        intro a
        simp only [List.mem_append]
        rintro (h1 | h1)
        · simp at h1
        · split at h1 <;> simp at h1) hBC
    refine ⟨?_, c2, c3, c4⟩
    rw [c1]
    split <;> rfl

theorem stop_sync_char (cfg : Config) (s : SyncState) (q : QueueState) (id : Nat)
    (env : StopEnv) :
    stop_sync cfg s q id env =
      (match env.account with
       | none => ⟨stoppedState s id, q, killEvents s id, some Err.other, none⟩
       | some acc =>
         match env.dbErr with
         | some e =>
             ⟨stoppedState s id, q,
              killEvents s id ++
                (if acc.sync_should_run then [] else [Event.clearHeartbeat acc.id]) ++
                [Event.syncStoppedMarker acc.id cfg.process_identifier],
              some e, none⟩
         | none =>
             ⟨stoppedState s id, (q.unassign id cfg.process_identifier).1,
              killEvents s id ++
                (if acc.sync_should_run then [] else [Event.clearHeartbeat acc.id]) ++
                [Event.syncStoppedMarker acc.id cfg.process_identifier] ++
                [Event.unassignCall id cfg.process_identifier],
              none, some (q.unassign id cfg.process_identifier).2⟩) := by
  rcases h1 : lookupA s.email_sync_monitors id with _ | t1 <;>
    rcases h2 : lookupA s.contact_sync_monitors id with _ | t2 <;>
      rcases h3 : lookupA s.event_sync_monitors id with _ | em3 <;>
        cases henv : env.account <;>
          cases hdb : env.dbErr <;>
            simp_all [stop_sync, stoppedState, killEvents, delA_eq_self]

theorem stop_sync_acc_none (cfg : Config) (s : SyncState) (q : QueueState) (id : Nat)
    (env : StopEnv) (henv : env.account = none) :
    stop_sync cfg s q id env =
      ⟨stoppedState s id, q, killEvents s id, some Err.other, none⟩ := by
  rw [stop_sync_char, henv]

theorem stop_sync_dbe (cfg : Config) (s : SyncState) (q : QueueState) (id : Nat)
    (env : StopEnv) (acc : Account) (er : Err)
    (henv : env.account = some acc) (hdb : env.dbErr = some er) :
    stop_sync cfg s q id env =
      ⟨stoppedState s id, q,
       killEvents s id ++
         (if acc.sync_should_run then [] else [Event.clearHeartbeat acc.id]) ++
         [Event.syncStoppedMarker acc.id cfg.process_identifier],
       some er, none⟩ := by
  rw [stop_sync_char, henv, hdb]

theorem stop_sync_ok (cfg : Config) (s : SyncState) (q : QueueState) (id : Nat)
    (env : StopEnv) (acc : Account)
    (henv : env.account = some acc) (hdb : env.dbErr = none) :
    stop_sync cfg s q id env =
      ⟨stoppedState s id, (q.unassign id cfg.process_identifier).1,
       killEvents s id ++
         (if acc.sync_should_run then [] else [Event.clearHeartbeat acc.id]) ++
         [Event.syncStoppedMarker acc.id cfg.process_identifier] ++
         [Event.unassignCall id cfg.process_identifier],
       none, some (q.unassign id cfg.process_identifier).2⟩ := by
  rw [stop_sync_char, henv, hdb]

theorem killEvents_no_ctrl (s : SyncState) (id : Nat) :
    ∀ e ∈ killEvents s id, ¬ ctrlEvent e := by
  intro e he
  unfold killEvents at he
  simp only [List.mem_append] at he
  rcases he with (he | he) | he <;> split at he <;> simp_all [ctrlEvent]

theorem stop_sync_state (cfg : Config) (s : SyncState) (q : QueueState) (id : Nat)
    (env : StopEnv) :
    (stop_sync cfg s q id env).state = stoppedState s id := by
  rcases henv : env.account with _ | acc
  · rw [stop_sync_acc_none cfg s q id env henv]
  · rcases hdb : env.dbErr with _ | er
    · rw [stop_sync_ok cfg s q id env acc henv hdb]
    · rw [stop_sync_dbe cfg s q id env acc er henv hdb]

theorem stop_sync_no_ctrl (cfg : Config) (s : SyncState) (q : QueueState) (id : Nat)
    (env : StopEnv) :
    ∀ e ∈ (stop_sync cfg s q id env).events, ¬ ctrlEvent e := by
  intro e he
  rcases henv : env.account with _ | acc
  · rw [stop_sync_acc_none cfg s q id env henv] at he
    exact killEvents_no_ctrl s id e he
  · rcases hdb : env.dbErr with _ | er
    · rw [stop_sync_ok cfg s q id env acc henv hdb] at he
      simp only [List.mem_append] at he
      rcases he with ((he | he) | he) | he
      · exact killEvents_no_ctrl s id e he
      · split at he <;> simp_all [ctrlEvent]
      · simp_all [ctrlEvent]
      · simp_all [ctrlEvent]
    · rw [stop_sync_dbe cfg s q id env acc er henv hdb] at he
      simp only [List.mem_append] at he
      rcases he with (he | he) | he
      · exact killEvents_no_ctrl s id e he
      · split at he <;> simp_all [ctrlEvent]
      · simp_all [ctrlEvent]

theorem eventsTail_err (cfg : Config) (id : Nat) (env : StartEnv) (acc : Account)
    (st : SyncState × List Event) :
    (eventsTail cfg id env acc st).err = env.exitErr := by
  by_cases hC : ((acc.provider_info_events && acc.sync_events) &&
      (env.events.failCons || env.events.failStart)) = true
  · exact (eventsTail_fail cfg id env acc st hC).2.2
  · rw [Bool.not_eq_true] at hC
    rw [eventsTail_ok cfg id env acc st hC]

theorem contactsTail_err (cfg : Config) (id : Nat) (env : StartEnv) (acc : Account)
    (st : SyncState × List Event) :
    (contactsTail cfg id env acc st).err = env.exitErr := by
  by_cases hB : ((acc.provider_info_contacts && acc.sync_contacts) &&
      (env.contacts.failCons || env.contacts.failStart)) = true
  · exact (contactsTail_fail cfg id env acc st hB).2.2
  · rw [Bool.not_eq_true] at hB
    rw [contactsTail_ok cfg id env acc st hB]
    exact eventsTail_err cfg id env acc _

theorem start_sync_err (cfg : Config) (s : SyncState) (id : Nat) (env : StartEnv) :
    (start_sync cfg s id env).err = none ∨
    (start_sync cfg s id env).err = env.exitErr := by
  cases henv : env.account with
  | none => rw [start_sync_none cfg s id env henv]; exact Or.inl rfl
  | some acc =>
    by_cases hmem : acc.id ∈ s.syncing_accounts
    · rw [start_sync_already cfg s id env acc henv hmem]; exact Or.inr rfl
    · by_cases hA : (acc.sync_email && (env.email.failCons || env.email.failStart)) = true
      · exact Or.inr (start_sync_emailFail cfg s id env acc henv hmem hA).2.2
      · rw [Bool.not_eq_true] at hA
        rw [start_sync_noEmailFail cfg s id env acc henv hmem hA]
        exact Or.inr (contactsTail_err cfg id env acc _)

theorem runStarts_err (cfg : Config) (env : Nat → StartEnv)
    (h : ∀ id, (env id).exitErr ≠ some Err.other) :
    ∀ ids (s : SyncState) (ev : List Event),
      (runStarts cfg s ev ids env).2.2 = none := by
  intro ids
  induction ids with
  | nil => intro s ev; rfl
  | cons a rest ih =>
    intro s ev
    simp only [runStarts]
    by_cases hmem : a ∈ s.syncing_accounts
    · rw [if_pos hmem]; exact ih s ev
    · rw [if_neg hmem]
      rcases herr : (start_sync cfg s a (env a)).err with _ | e
      · exact ih _ _
      · cases e with
        | operational => exact ih _ _
        | other =>
          exfalso
          rcases start_sync_err cfg s a (env a) with h1 | h1
          · rw [herr] at h1; cases h1
          · rw [herr] at h1; exact h a h1.symm

theorem runStarts_ctrl_mem (cfg : Config) (env : Nat → StartEnv) (e : Event)
    (hce : ctrlEvent e) (hnsc : ∀ i, e ≠ Event.startCall i) :
    ∀ ids (s : SyncState) (ev : List Event),
      (e ∈ (runStarts cfg s ev ids env).2.1 ↔ e ∈ ev) := by
  intro ids
  induction ids with
  | nil => intro s ev; rfl
  | cons a rest ih =>
    intro s ev
    simp only [runStarts]
    by_cases hmem : a ∈ s.syncing_accounts
    · rw [if_pos hmem]; exact ih s ev
    · rw [if_neg hmem]
      have hne : e ∉ (start_sync cfg s a (env a)).events :=
        fun hmm => (start_sync_facts cfg s a (env a)).2.2.2 e hmm hce
      have hsc : e ∉ [Event.startCall a] := by
        simp
        exact hnsc a
      rcases herr : (start_sync cfg s a (env a)).err with _ | er
      · rw [ih]
        simp only [List.mem_append]
        constructor
        · rintro ((h1 | h1) | h1)
          · exact h1
          · exact absurd h1 hsc
          · exact absurd h1 hne
        · exact fun h1 => Or.inl (Or.inl h1)
      · cases er with
        | operational =>
          rw [ih]
          simp only [List.mem_append]
          constructor
          · rintro (((h1 | h1) | h1) | h1)
            · exact h1
            · exact absurd h1 hsc
            · exact absurd h1 hne
            · simp at h1
              subst h1
              simp [ctrlEvent] at hce
          · exact fun h1 => Or.inl (Or.inl (Or.inl h1))
        | other =>
          simp only [List.mem_append]
          constructor
          · rintro ((h1 | h1) | h1)
            · exact h1
            · exact absurd h1 hsc
            · exact absurd h1 hne
          · exact fun h1 => Or.inl (Or.inl h1)

theorem runStarts_syncing (cfg : Config) (env : Nat → StartEnv)
    (hWF : WFStartEnv env) :
    ∀ ids (s : SyncState) (ev : List Event),
      (∀ k, k ∈ s.syncing_accounts →
        k ∈ (runStarts cfg s ev ids env).1.syncing_accounts) ∧
      (∀ k, k ∈ (runStarts cfg s ev ids env).1.syncing_accounts →
        k ∈ s.syncing_accounts ∨ k ∈ ids) := by
  intro ids
  induction ids with
  | nil =>
    intro s ev
    exact ⟨fun k hk => hk, fun k hk => Or.inl hk⟩
  | cons a rest ih =>
    intro s ev
    simp only [runStarts]
    by_cases hmem : a ∈ s.syncing_accounts
    · rw [if_pos hmem]
      refine ⟨(ih s ev).1, fun k hk => ?_⟩
      rcases (ih s ev).2 k hk with h1 | h1
      · exact Or.inl h1
      · exact Or.inr (List.mem_cons_of_mem a h1)
    · rw [if_neg hmem]
      have hsuper := (start_sync_facts cfg s a (env a)).1
      have hsub := (start_sync_facts cfg s a (env a)).2.1
      have hbound : ∀ k, k ∈ (start_sync cfg s a (env a)).state.syncing_accounts →
          k ∈ s.syncing_accounts ∨ k = a := by
        intro k hk
        rcases hsuper k hk with h1 | ⟨acc, hacc, hid⟩
        · exact Or.inl h1
        · exact Or.inr (hid.trans (hWF a acc hacc))
      rcases herr : (start_sync cfg s a (env a)).err with _ | er
      · refine ⟨fun k hk => (ih _ _).1 k (hsub k hk), fun k hk => ?_⟩
        rcases (ih _ _).2 k hk with h1 | h1
        · rcases hbound k h1 with h2 | h2
          · exact Or.inl h2
          · exact Or.inr (h2 ▸ List.mem_cons_self a rest)
        · exact Or.inr (List.mem_cons_of_mem a h1)
      · cases er with
        | operational =>
          refine ⟨fun k hk => (ih _ _).1 k (hsub k hk), fun k hk => ?_⟩
          rcases (ih _ _).2 k hk with h1 | h1
          · rcases hbound k h1 with h2 | h2
            · exact Or.inl h2
            · exact Or.inr (h2 ▸ List.mem_cons_self a rest)
          · exact Or.inr (List.mem_cons_of_mem a h1)
        | other =>
          refine ⟨fun k hk => hsub k hk, fun k hk => ?_⟩
          rcases hbound k hk with h2 | h2
          · exact Or.inl h2
          · exact Or.inr (h2 ▸ List.mem_cons_self a rest)

theorem runStarts_startCall (cfg : Config) (env : Nat → StartEnv)
    (hWF : WFStartEnv env) :
    ∀ ids (s : SyncState) (ev : List Event),
      (runStarts cfg s ev ids env).2.2 = none →
      ∀ k, (Event.startCall k ∈ (runStarts cfg s ev ids env).2.1 ↔
        Event.startCall k ∈ ev ∨ (k ∈ ids ∧ k ∉ s.syncing_accounts)) := by
  intro ids
  induction ids with
  | nil =>
    intro s ev _ k
    simp [runStarts]
  | cons a rest ih =>
    intro s ev herr k
    simp only [runStarts] at herr ⊢
    by_cases hmem : a ∈ s.syncing_accounts
    · rw [if_pos hmem] at herr ⊢
      rw [ih s ev herr k]
      constructor
      · rintro (h1 | ⟨h1, h2⟩)
        · exact Or.inl h1
        · exact Or.inr ⟨List.mem_cons_of_mem a h1, h2⟩
      · rintro (h1 | ⟨h1, h2⟩)
        · exact Or.inl h1
        · rcases List.mem_cons.mp h1 with h3 | h3
          · exact absurd (h3 ▸ hmem) h2
          · exact Or.inr ⟨h3, h2⟩
    · rw [if_neg hmem] at herr ⊢
      have hnc := (start_sync_facts cfg s a (env a)).2.2.2
      have hne : Event.startCall k ∉ (start_sync cfg s a (env a)).events :=
        fun hmm => hnc _ hmm (by simp [ctrlEvent])
      have hsuper := (start_sync_facts cfg s a (env a)).2.1
      have hbound : ∀ j, j ∈ (start_sync cfg s a (env a)).state.syncing_accounts →
          j ∈ s.syncing_accounts ∨ j = a := by
        intro j hj
        rcases (start_sync_facts cfg s a (env a)).1 j hj with h1 | ⟨acc, hacc, hid⟩
        · exact Or.inl h1
        · exact Or.inr (hid.trans (hWF a acc hacc))
      have key : ∀ (extra : List Event),
          (∀ i, Event.startCall i ∉ extra) →
          (runStarts cfg (start_sync cfg s a (env a)).state
              (ev ++ [Event.startCall a] ++ (start_sync cfg s a (env a)).events ++ extra)
              rest env).2.2 = none →
          (Event.startCall k ∈ (runStarts cfg (start_sync cfg s a (env a)).state
              (ev ++ [Event.startCall a] ++ (start_sync cfg s a (env a)).events ++ extra)
              rest env).2.1 ↔
            Event.startCall k ∈ ev ∨ (k ∈ a :: rest ∧ k ∉ s.syncing_accounts)) := by
        intro extra hextra herr2
        rw [ih _ _ herr2 k]
        by_cases hka : k = a
        · subst hka
          constructor
          · intro _
            exact Or.inr ⟨List.mem_cons_self k rest, hmem⟩
          · intro _
            refine Or.inl ?_
            simp only [List.mem_append]
            refine Or.inl (Or.inl (Or.inr ?_))
            simp
        · constructor
          · rintro (h1 | ⟨h1, h2⟩)
            · simp only [List.mem_append] at h1
              rcases h1 with ((h3 | h3) | h3) | h3
              · exact Or.inl h3
              · simp at h3
                exact absurd h3 hka
              · exact absurd h3 hne
              · exact absurd h3 (hextra k)
            · refine Or.inr ⟨List.mem_cons_of_mem a h1, fun hks => h2 (hsuper k hks)⟩
          · rintro (h1 | ⟨h1, h2⟩)
            · refine Or.inl ?_
              simp only [List.mem_append]
              exact Or.inl (Or.inl (Or.inl h1))
            · rcases List.mem_cons.mp h1 with h3 | h3
              · exact absurd h3 hka
              · refine Or.inr ⟨h3, fun hks => ?_⟩
                rcases hbound k hks with h4 | h4
                · exact h2 h4
                · exact hka h4
      rcases herr2 : (start_sync cfg s a (env a)).err with _ | er
      · rw [herr2] at herr
        have h0 : (∀ i, Event.startCall i ∉ ([] : List Event)) := by simp
        have := key [] h0 (by simpa using herr)
        simpa using this
      · cases er with
        | operational =>
          rw [herr2] at herr
          have h0 : (∀ i, Event.startCall i ∉ [Event.logDbError a]) := by simp
          exact key [Event.logDbError a] h0 herr
        | other =>
          rw [herr2] at herr
          simp at herr

theorem stop_sync_err_cases (cfg : Config) (s : SyncState) (q : QueueState) (id : Nat)
    (env : StopEnv) :
    (stop_sync cfg s q id env).err = none ∨
    (stop_sync cfg s q id env).err = some Err.other ∨
    (stop_sync cfg s q id env).err = env.dbErr := by
  rcases henv : env.account with _ | acc
  · rw [stop_sync_acc_none cfg s q id env henv]
    exact Or.inr (Or.inl rfl)
  · rcases hdb : env.dbErr with _ | er
    · rw [stop_sync_ok cfg s q id env acc henv hdb]
      exact Or.inl rfl
    · rw [stop_sync_dbe cfg s q id env acc er henv hdb]
      exact Or.inr (Or.inr rfl)

theorem runStops_err (cfg : Config) (env : Nat → StopEnv)
    (h : ∀ id, (env id).account ≠ none ∧ (env id).dbErr ≠ some Err.other) :
    ∀ ids (s : SyncState) (q : QueueState) (ev : List Event),
      (runStops cfg s q ev ids env).err = none := by
  intro ids
  induction ids with
  | nil => intro s q ev; rfl
  | cons a rest ih =>
    intro s q ev
    simp only [runStops]
    rcases herr : (stop_sync cfg s q a (env a)).err with _ | er
    · exact ih _ _ _
    · cases er with
      | operational => exact ih _ _ _
      | other =>
        exfalso
        rcases stop_sync_err_cases cfg s q a (env a) with h1 | h1 | h1 <;> rw [herr] at h1
        · cases h1
        · rcases hacc : (env a).account with _ | acc2
          · exact (h a).1 hacc
          · rcases hdb : (env a).dbErr with _ | er2
            · rw [stop_sync_ok cfg s q a (env a) acc2 hacc hdb] at herr
              cases herr
            · rw [stop_sync_dbe cfg s q a (env a) acc2 er2 hacc hdb] at herr
              simp at herr
              subst herr
              exact (h a).2 hdb
        · exact (h a).2 h1.symm

theorem runStops_ctrl_mem (cfg : Config) (env : Nat → StopEnv) (e : Event)
    (hce : ctrlEvent e) (hnsc : ∀ i, e ≠ Event.stopCall i) :
    ∀ ids (s : SyncState) (q : QueueState) (ev : List Event),
      (e ∈ (runStops cfg s q ev ids env).events ↔ e ∈ ev) := by
  intro ids
  induction ids with
  | nil => intro s q ev; rfl
  | cons a rest ih =>
    intro s q ev
    simp only [runStops]
    have hne : e ∉ (stop_sync cfg s q a (env a)).events :=
      fun hmm => stop_sync_no_ctrl cfg s q a (env a) e hmm hce
    have hsc : e ∉ [Event.stopCall a] := by
      simp
      exact hnsc a
    rcases herr : (stop_sync cfg s q a (env a)).err with _ | er
    · rw [ih]
      simp only [List.mem_append]
      constructor
      · rintro ((h1 | h1) | h1)
        · exact h1
        · exact absurd h1 hsc
        · exact absurd h1 hne
      · exact fun h1 => Or.inl (Or.inl h1)
    · cases er with
      | operational =>
        rw [ih]
        simp only [List.mem_append]
        constructor
        · rintro (((h1 | h1) | h1) | h1)
          · exact h1
          · exact absurd h1 hsc
          · exact absurd h1 hne
          · simp at h1
            subst h1
            simp [ctrlEvent] at hce
        · exact fun h1 => Or.inl (Or.inl (Or.inl h1))
      | other =>
        simp only [List.mem_append]
        constructor
        · rintro ((h1 | h1) | h1)
          · exact h1
          · exact absurd h1 hsc
          · exact absurd h1 hne
        · exact fun h1 => Or.inl (Or.inl h1)

theorem runStops_stopCall (cfg : Config) (env : Nat → StopEnv) :
    ∀ ids (s : SyncState) (q : QueueState) (ev : List Event),
      (runStops cfg s q ev ids env).err = none →
      ∀ k, (Event.stopCall k ∈ (runStops cfg s q ev ids env).events ↔
        Event.stopCall k ∈ ev ∨ k ∈ ids) := by
  intro ids
  induction ids with
  | nil =>
    intro s q ev _ k
    simp [runStops]
  | cons a rest ih =>
    intro s q ev herr k
    simp only [runStops] at herr ⊢
    have hne : Event.stopCall k ∉ (stop_sync cfg s q a (env a)).events :=
      fun hmm => stop_sync_no_ctrl cfg s q a (env a) _ hmm (by simp [ctrlEvent])
    have key : ∀ (extra : List Event), (∀ i, Event.stopCall i ∉ extra) →
        ∀ q2 s2, (runStops cfg s2 q2
            (ev ++ [Event.stopCall a] ++ (stop_sync cfg s q a (env a)).events ++ extra)
            rest env).err = none →
          (Event.stopCall k ∈ (runStops cfg s2 q2
              (ev ++ [Event.stopCall a] ++ (stop_sync cfg s q a (env a)).events ++ extra)
              rest env).events ↔
            Event.stopCall k ∈ ev ∨ k ∈ a :: rest) := by
      intro extra hextra q2 s2 herr2
      rw [ih s2 q2 _ herr2 k]
      by_cases hka : k = a
      · subst hka
        constructor
        · intro _
          exact Or.inr (List.mem_cons_self k rest)
        · intro _
          refine Or.inl ?_
          simp only [List.mem_append]
          refine Or.inl (Or.inl (Or.inr ?_))
          simp
      · constructor
        · rintro (h1 | h1)
          · simp only [List.mem_append] at h1
            rcases h1 with ((h3 | h3) | h3) | h3
            · exact Or.inl h3
            · simp at h3
              exact absurd h3 hka
            · exact absurd h3 hne
            · exact absurd h3 (hextra k)
          · exact Or.inr (List.mem_cons_of_mem a h1)
        · rintro (h1 | h1)
          · refine Or.inl ?_
            simp only [List.mem_append]
            exact Or.inl (Or.inl (Or.inl h1))
          · rcases List.mem_cons.mp h1 with h3 | h3
            · exact absurd h3 hka
            · exact Or.inr h3
    rcases herr2 : (stop_sync cfg s q a (env a)).err with _ | er
    · rw [herr2] at herr
      have h0 : (∀ i, Event.stopCall i ∉ ([] : List Event)) := by simp
      have := key [] h0 _ _ (by simpa using herr)
      simpa using this
    · cases er with
      | operational =>
        rw [herr2] at herr
        have h0 : (∀ i, Event.stopCall i ∉ [Event.logDbError a]) := by simp
        exact key [Event.logDbError a] h0 _ _ herr
      | other =>
        rw [herr2] at herr
        simp at herr

theorem acquire_events (cfg : Config) (q : QueueState) (env : TickEnv) :
    (acquirePhase cfg q env).2 =
      if (cfg.stealing_enabled &&
          !(env.usage_per_cpu.all (fun u => decide ((90 : Rat) < u)))) then
        [Event.claimNext cfg.process_identifier]
      else [] := by
  simp only [acquirePhase]
  split <;> rfl

theorem overloaded_iff (env : TickEnv) :
    (env.usage_per_cpu.all (fun u => decide ((90 : Rat) < u))) = false ↔
      ∃ u ∈ env.usage_per_cpu, u ≤ 90 := by
  rw [← Bool.not_eq_true, List.all_eq_true]
  push_neg
  constructor
  · rintro ⟨u, hu, hd⟩
    exact ⟨u, hu, le_of_not_lt (by simpa using hd)⟩
  · rintro ⟨u, hu, hle⟩
    exact ⟨u, hu, by simpa using not_lt_of_le hle⟩

theorem claim_mem_acquire (cfg : Config) (q : QueueState) (env : TickEnv) :
    (Event.claimNext cfg.process_identifier ∈ (acquirePhase cfg q env).2 ↔
      cfg.stealing_enabled = true ∧ ∃ u ∈ env.usage_per_cpu, u ≤ 90) := by
  have hiff : (cfg.stealing_enabled &&
      !(env.usage_per_cpu.all (fun u => decide ((90 : Rat) < u)))) = true ↔
      (cfg.stealing_enabled = true ∧ ∃ u ∈ env.usage_per_cpu, u ≤ 90) := by
    rw [Bool.and_eq_true, Bool.not_eq_true']
    exact and_congr_right (fun _ => overloaded_iff env)
  rw [acquire_events]
  split
  · next hcond =>
    simp only [List.mem_singleton]
    exact iff_of_true trivial (hiff.mp hcond)
  · next hcond =>
    simp only [List.not_mem_nil, false_iff]
    exact fun hc => hcond (hiff.mpr hc)

theorem acquire_no_start_stop (cfg : Config) (q : QueueState) (env : TickEnv) (k : Nat) :
    Event.startCall k ∉ (acquirePhase cfg q env).2 ∧
    Event.stopCall k ∉ (acquirePhase cfg q env).2 := by
  rw [acquire_events]
  split <;> simp

theorem poll_claim_iff (cfg : Config) (s : SyncState) (q : QueueState) (env : TickEnv) :
    (Event.claimNext cfg.process_identifier ∈ (poll cfg s q env).events ↔
      cfg.stealing_enabled = true ∧ ∃ u ∈ env.usage_per_cpu, u ≤ 90) := by
  have hce : ctrlEvent (Event.claimNext cfg.process_identifier) := by simp [ctrlEvent]
  have hns : ∀ i, Event.claimNext cfg.process_identifier ≠ Event.startCall i := by
    intro i h
    cases h
  have hnt : ∀ i, Event.claimNext cfg.process_identifier ≠ Event.stopCall i := by
    intro i h
    cases h
  rw [← claim_mem_acquire cfg q env]
  simp only [poll]
  rcases herr : (runStarts cfg s (acquirePhase cfg q env).2
      (accounts_to_sync cfg.process_identifier (acquirePhase cfg q env).1)
      env.startEnv).2.2 with _ | er
  · rw [runStops_ctrl_mem cfg env.stopEnv _ hce hnt]
    exact runStarts_ctrl_mem cfg env.startEnv _ hce hns _ _ _
  · exact runStarts_ctrl_mem cfg env.startEnv _ hce hns _ _ _

theorem poll_err_none (cfg : Config) (s : SyncState) (q : QueueState) (env : TickEnv)
    (hstart : ∀ id, (env.startEnv id).exitErr ≠ some Err.other)
    (hstop : ∀ id, (env.stopEnv id).account ≠ none ∧
      (env.stopEnv id).dbErr ≠ some Err.other) :
    (poll cfg s q env).err = none := by
  simp only [poll]
  rw [runStarts_err cfg env.startEnv hstart]
  exact runStops_err cfg env.stopEnv hstop _ _ _ _

theorem poll_calls (cfg : Config) (s : SyncState) (q : QueueState) (env : TickEnv)
    (hWF : WFStartEnv env.startEnv)
    (hok : (poll cfg s q env).err = none) :
    ∀ k, (Event.startCall k ∈ (poll cfg s q env).events ↔
            k ∈ desiredSet cfg q env ∧ k ∉ s.syncing_accounts) ∧
         (Event.stopCall k ∈ (poll cfg s q env).events ↔
            k ∈ s.syncing_accounts ∧ k ∉ desiredSet cfg q env) := by
  simp only [poll, desiredSet] at hok ⊢
  rcases herr : (runStarts cfg s (acquirePhase cfg q env).2
      (accounts_to_sync cfg.process_identifier (acquirePhase cfg q env).1)
      env.startEnv).2.2 with _ | er
  · rw [herr] at hok
    intro k
    constructor
    · -- startCall
      rw [runStops_ctrl_mem cfg env.stopEnv _ (by simp [ctrlEvent])
        (fun i h => by cases h)]
      rw [runStarts_startCall cfg env.startEnv hWF _ s _ herr k]
      constructor
      · rintro (h1 | h1)
        · exact absurd h1 (acquire_no_start_stop cfg q env k).1
        · exact h1
      · exact fun h1 => Or.inr h1
    · -- stopCall
      rw [runStops_stopCall cfg env.stopEnv _ _ _ _ hok k]
      have hnotin : Event.stopCall k ∉ (runStarts cfg s (acquirePhase cfg q env).2
          (accounts_to_sync cfg.process_identifier (acquirePhase cfg q env).1)
          env.startEnv).2.1 := by
        rw [runStarts_ctrl_mem cfg env.startEnv _ (by simp [ctrlEvent])
          (fun i h => by cases h)]
        exact (acquire_no_start_stop cfg q env k).2
      have hsy := runStarts_syncing cfg env.startEnv hWF
        (accounts_to_sync cfg.process_identifier (acquirePhase cfg q env).1) s
        (acquirePhase cfg q env).2
      constructor
      · rintro (h1 | h1)
        · exact absurd h1 hnotin
        · rw [List.mem_filter] at h1
          obtain ⟨h2, h3⟩ := h1
          have h4 : k ∉ accounts_to_sync cfg.process_identifier (acquirePhase cfg q env).1 := by
            simpa using h3
          rcases hsy.2 k h2 with h5 | h5
          · exact ⟨h5, h4⟩
          · exact absurd h5 h4
      · rintro ⟨h1, h2⟩
        refine Or.inr ?_
        rw [List.mem_filter]
        refine ⟨hsy.1 k h1, ?_⟩
        simpa using h2
  · rw [herr] at hok
    simp at hok

theorem applyOp_pres (cfg : Config) (sq : SyncState × QueueState) (op : Op)
    (C : Nat → Prop)
    (hP : ∀ k, k ∈ sq.1.syncing_accounts → hasHandle sq.1 k ∨ C k) :
    ∀ k, k ∈ (applyOp cfg sq op).1.syncing_accounts →
      hasHandle (applyOp cfg sq op).1 k ∨ C k ∨ noCapsOp op k := by
  cases op with
  | stop id env =>
    intro k hk
    simp only [applyOp] at hk ⊢
    rw [stop_sync_state] at hk ⊢
    have hk' : k ∈ sq.1.syncing_accounts ∧ k ≠ id := by
      rw [stoppedState] at hk
      exact (mem_removeL _ _ _).mp hk
    rcases hP k hk'.1 with h1 | h1
    · left
      unfold hasHandle at h1 ⊢
      unfold stoppedState
      simp only
      simp only [lookupA_delA, if_neg hk'.2]
      exact h1
    · exact Or.inr (Or.inl h1)
  | start id env =>
    intro k hk
    simp only [applyOp] at hk ⊢
    have hfacts := start_sync_facts cfg sq.1 id env
    rcases hfacts.1 k hk with h1 | ⟨acc, hacc, hkid⟩
    · rcases hP k h1 with h2 | h2
      · exact Or.inl (hfacts.2.2.1 k h2)
      · exact Or.inr (Or.inl h2)
    · subst hkid
      by_cases hmem : acc.id ∈ sq.1.syncing_accounts
      · rcases hP acc.id hmem with h2 | h2
        · exact Or.inl (hfacts.2.2.1 _ h2)
        · exact Or.inr (Or.inl h2)
      · by_cases hsucc : startSucceeds acc env = true
        · rw [start_sync_success cfg sq.1 id env acc hacc hmem hsucc]
          by_cases hE : acc.sync_email = true
          · refine Or.inl (Or.inl ?_)
            simp [hE, lookupA_setA_self]
          · by_cases hC2 : (acc.provider_info_contacts && acc.sync_contacts) = true
            · refine Or.inl (Or.inr (Or.inl ?_))
              simp [hC2, lookupA_setA_self]
            · by_cases hV : (acc.provider_info_events && acc.sync_events) = true
              · refine Or.inl (Or.inr (Or.inr ?_))
                simp [hV, lookupA_setA_self]
              · refine Or.inr (Or.inr ?_)
                refine ⟨acc, hacc, rfl, ?_, ?_, ?_⟩
                · rwa [Bool.not_eq_true] at hE
                · rwa [Bool.not_eq_true] at hC2
                · rwa [Bool.not_eq_true] at hV
        · rw [Bool.not_eq_true] at hsucc
          have habd := (start_sync_abandoned cfg sq.1 id env acc hacc hmem hsucc).1
          rw [habd] at hk
          exact absurd hk hmem

theorem foldOps_pres (cfg : Config) :
    ∀ (ops : List Op) (sq : SyncState × QueueState) (C : Nat → Prop),
      (∀ k, k ∈ sq.1.syncing_accounts → hasHandle sq.1 k ∨ C k) →
      ∀ k, k ∈ (ops.foldl (applyOp cfg) sq).1.syncing_accounts →
        hasHandle (ops.foldl (applyOp cfg) sq).1 k ∨ C k ∨
          ∃ op ∈ ops, noCapsOp op k := by
  intro ops
  induction ops with
  | nil =>
    intro sq C hP k hk
    rcases hP k hk with h1 | h1
    · exact Or.inl h1
    · exact Or.inr (Or.inl h1)
  | cons op rest ih =>
    intro sq C hP k hk
    rw [List.foldl_cons] at hk ⊢
    have hstep := applyOp_pres cfg sq op C hP
    have := ih (applyOp cfg sq op) (fun j => C j ∨ noCapsOp op j) hstep k hk
    rcases this with h1 | h1 | h1
    · exact Or.inl h1
    · rcases h1 with h1 | h1
      · exact Or.inr (Or.inl h1)
      · exact Or.inr (Or.inr ⟨op, List.mem_cons_self op rest, h1⟩)
    · obtain ⟨op2, hop2, hnc⟩ := h1
      exact Or.inr (Or.inr ⟨op2, List.mem_cons_of_mem op hop2, hnc⟩)

/-- C1: diff correctness of the converge phase.  For a tick that runs to
completion (no propagated exception) with a well-formed database (each
queried row carries the queried id), `poll` invokes `start_sync` exactly
for the ids in the freshly-computed desired set that are not in
`syncing_accounts`, and `stop_sync` exactly for the ids in
`syncing_accounts` that are not in the desired set; ids in both sets get
neither call. -/
theorem c1_converge_diff (cfg : Config) (s : SyncState) (q : QueueState) (env : TickEnv)
    (hWF : WFStartEnv env.startEnv)
    (hok : (poll cfg s q env).err = none) :
    ∀ k, (Event.startCall k ∈ (poll cfg s q env).events ↔
            k ∈ desiredSet cfg q env ∧ k ∉ s.syncing_accounts) ∧
         (Event.stopCall k ∈ (poll cfg s q env).events ↔
            k ∈ s.syncing_accounts ∧ k ∉ desiredSet cfg q env) :=
  poll_calls cfg s q env hWF hok

/-- Witness for C1 at the spec's example: RunningSet `{1,2,3}`, desired
set `{2,3,4}`; account 4 is started, account 1 stopped, accounts 2 and 3
untouched. -/
theorem c1_converge_diff_witness :
    (Event.startCall 4 ∈ (poll cfgW1 sW1 qW1 envW1).events ↔
      4 ∈ desiredSet cfgW1 qW1 envW1 ∧ 4 ∉ sW1.syncing_accounts) ∧
    (Event.stopCall 1 ∈ (poll cfgW1 sW1 qW1 envW1).events ↔
      1 ∈ sW1.syncing_accounts ∧ 1 ∉ desiredSet cfgW1 qW1 envW1) ∧
    (Event.startCall 2 ∈ (poll cfgW1 sW1 qW1 envW1).events ↔
      2 ∈ desiredSet cfgW1 qW1 envW1 ∧ 2 ∉ sW1.syncing_accounts) := by
  have hWF : WFStartEnv envW1.startEnv := by
    intro j acc h
    injection h with h2
    rw [← h2]
    rfl
  have hok : (poll cfgW1 sW1 qW1 envW1).err = none := by decide
  exact ⟨(c1_converge_diff cfgW1 sW1 qW1 envW1 hWF hok 4).1,
    (c1_converge_diff cfgW1 sW1 qW1 envW1 hWF hok 1).2,
    (c1_converge_diff cfgW1 sW1 qW1 envW1 hWF hok 2).1⟩

/-- C2 counterexample: with stealing enabled and an EMPTY per-core
utilization sample, the claim says work is accepted and `claim_next` is
attempted; but `all` of an empty list is vacuously true, so the code
treats the empty sample as overloaded and never calls `claim_next`. -/
theorem c2_counterexample :
    cfgW.stealing_enabled = true ∧
    envEmptyCpu.usage_per_cpu = [] ∧
    Event.claimNext "hostA:0" ∉ (poll cfgW initState ⟨[]⟩ envEmptyCpu).events := by
  decide

/-- C2 amended: the acquire phase attempts `claim_next` exactly when
stealing is enabled and at least one sampled core is at or below 90.0
utilization; in particular every non-empty sample with an idle core
accepts, while the all-hot sample and the empty sample refuse. -/
theorem c2_admission (cfg : Config) (s : SyncState) (q : QueueState) (env : TickEnv) :
    (Event.claimNext cfg.process_identifier ∈ (poll cfg s q env).events ↔
      cfg.stealing_enabled = true ∧ ∃ u ∈ env.usage_per_cpu, u ≤ 90) :=
  poll_claim_iff cfg s q env

/-- C3: idempotent start.  From a state not yet tracking the id (and with
no stale handles for it), a successful start records exactly one handle
per enabled and provider-supported capability and adds the id once; a
second start call finds the id in `syncing_accounts`, logs, and returns
with the state unchanged, emitting nothing but the log line. -/
theorem c3_idempotent_start (cfg : Config) (s : SyncState) (id : Nat) (env : StartEnv)
    (acc : Account) (hacc : env.account = some acc) (hid : acc.id = id)
    (hnot : id ∉ s.syncing_accounts) (hok : startSucceeds acc env = true)
    (he0 : lookupA s.email_sync_monitors id = none)
    (hc0 : lookupA s.contact_sync_monitors id = none)
    (hv0 : lookupA s.event_sync_monitors id = none) :
    (start_sync cfg (start_sync cfg s id env).state id env).state =
      (start_sync cfg s id env).state ∧
    (start_sync cfg (start_sync cfg s id env).state id env).events =
      [Event.logAlreadyStarted id] ∧
    (start_sync cfg s id env).state.syncing_accounts.count id = 1 ∧
    lookupA (start_sync cfg s id env).state.email_sync_monitors id =
      (if acc.sync_email then some env.email.tok else none) ∧
    lookupA (start_sync cfg s id env).state.contact_sync_monitors id =
      (if acc.provider_info_contacts && acc.sync_contacts then some env.contacts.tok else none) ∧
    lookupA (start_sync cfg s id env).state.event_sync_monitors id =
      (if acc.provider_info_events && acc.sync_events then
        some ⟨env.events.tok, cfg.use_google_push && acc.provider == "gmail"⟩ else none) := by
  subst hid
  rw [start_sync_success cfg s acc.id env acc hacc hnot hok]
  have hmem2 : acc.id ∈ (insertL s.syncing_accounts acc.id) :=
    (mem_insertL _ _ _).mpr (Or.inr rfl)
  constructor
  · rw [start_sync_already cfg _ acc.id env acc hacc hmem2]
  constructor
  · rw [start_sync_already cfg _ acc.id env acc hacc hmem2]
  constructor
  · show (insertL s.syncing_accounts acc.id).count acc.id = 1
    unfold insertL
    rw [if_neg hnot, List.count_cons_self, List.count_eq_zero.mpr hnot]
  constructor
  · show lookupA (if acc.sync_email then setA s.email_sync_monitors acc.id env.email.tok
      else s.email_sync_monitors) acc.id = _
    split
    · exact lookupA_setA_self _ _ _
    · exact he0
  constructor
  · show lookupA (if acc.provider_info_contacts && acc.sync_contacts then
      setA s.contact_sync_monitors acc.id env.contacts.tok
      else s.contact_sync_monitors) acc.id = _
    split
    · exact lookupA_setA_self _ _ _
    · exact hc0
  · show lookupA (if acc.provider_info_events && acc.sync_events then
      setA s.event_sync_monitors acc.id _ else s.event_sync_monitors) acc.id = _
    split
    · exact lookupA_setA_self _ _ _
    · exact hv0

/-- Witness for C3 at a gmail account with all three capabilities. -/
theorem c3_idempotent_start_witness :
    (start_sync cfgPush (start_sync cfgPush initState 7 envFull).state 7 envFull).state =
      (start_sync cfgPush initState 7 envFull).state ∧
    (start_sync cfgPush (start_sync cfgPush initState 7 envFull).state 7 envFull).events =
      [Event.logAlreadyStarted 7] ∧
    (start_sync cfgPush initState 7 envFull).state.syncing_accounts.count 7 = 1 ∧
    lookupA (start_sync cfgPush initState 7 envFull).state.email_sync_monitors 7 =
      (if accFull.sync_email then some envFull.email.tok else none) ∧
    lookupA (start_sync cfgPush initState 7 envFull).state.contact_sync_monitors 7 =
      (if accFull.provider_info_contacts && accFull.sync_contacts then
        some envFull.contacts.tok else none) ∧
    lookupA (start_sync cfgPush initState 7 envFull).state.event_sync_monitors 7 =
      (if accFull.provider_info_events && accFull.sync_events then
        some ⟨envFull.events.tok, cfgPush.use_google_push && accFull.provider == "gmail"⟩
       else none) :=
  c3_idempotent_start cfgPush initState 7 envFull accFull rfl rfl (by decide)
    (by decide) rfl rfl rfl

/-- C4 counterexample: stopping an id that is NOT in RunningSet is not
free of externally visible side effects — the code still persists the
sync-stopped marker and calls unassign. -/
theorem c4_counterexample :
    1 ∉ sC4.syncing_accounts ∧
    Event.syncStoppedMarker 1 "hostA:0" ∈ (stop_sync cfgW sC4 qC4 1 envC4).events ∧
    Event.unassignCall 1 "hostA:0" ∈ (stop_sync cfgW sC4 qC4 1 envC4).events := by
  decide

/-- C4 amended: stopping an id not in RunningSet (with no stale handles
recorded for it) kills no monitor, leaves the state unchanged, and does
not raise provided the account row still exists and the commit succeeds;
but it still re-reads the account, clears the heartbeat when the account
should no longer run, persists the sync-stopped marker, and calls
unassign. -/
theorem c4_stop_not_running (cfg : Config) (s : SyncState) (q : QueueState) (id : Nat)
    (env : StopEnv) (acc : Account)
    (hnot : id ∉ s.syncing_accounts)
    (he0 : lookupA s.email_sync_monitors id = none)
    (hc0 : lookupA s.contact_sync_monitors id = none)
    (hv0 : lookupA s.event_sync_monitors id = none)
    (hacc : env.account = some acc) (hid : acc.id = id) (hdb : env.dbErr = none) :
    (stop_sync cfg s q id env).state = s ∧
    (stop_sync cfg s q id env).err = none ∧
    (∀ t, Event.monitorKill t ∉ (stop_sync cfg s q id env).events) ∧
    (stop_sync cfg s q id env).events =
      (if acc.sync_should_run then [] else [Event.clearHeartbeat id]) ++
        [Event.syncStoppedMarker id cfg.process_identifier] ++
        [Event.unassignCall id cfg.process_identifier] := by
  subst hid
  rw [stop_sync_ok cfg s q acc.id env acc hacc hdb]
  have hkill : killEvents s acc.id = [] := by
    unfold killEvents
    rw [he0, hc0, hv0]
    rfl
  have hstate : stoppedState s acc.id = s := by
    unfold stoppedState
    rw [delA_eq_self _ _ he0, delA_eq_self _ _ hc0, delA_eq_self _ _ hv0]
    have : removeL s.syncing_accounts acc.id = s.syncing_accounts := by
      unfold removeL
      rw [List.filter_eq_self]
      intro a ha
      simp
      exact fun heq => hnot (heq ▸ ha)
    rw [this]
  refine ⟨hstate, rfl, ?_, ?_⟩
  · intro t ht
    simp only [hkill, List.nil_append, List.mem_append] at ht
    rcases ht with ht | ht
    · rcases ht with ht | ht
      · cases hrun : acc.sync_should_run <;> rw [hrun] at ht <;> simp at ht
      · simp at ht
    · simp at ht
  · rw [hkill]
    simp

/-- Witness for the amended C4. -/
theorem c4_stop_not_running_witness :
    (stop_sync cfgW sC4b qC4b 1 envC4).state = sC4b ∧
    (stop_sync cfgW sC4b qC4b 1 envC4).err = none ∧
    (∀ t, Event.monitorKill t ∉ (stop_sync cfgW sC4b qC4b 1 envC4).events) ∧
    (stop_sync cfgW sC4b qC4b 1 envC4).events =
      (if (accW 1).sync_should_run then [] else [Event.clearHeartbeat 1]) ++
        [Event.syncStoppedMarker 1 cfgW.process_identifier] ++
        [Event.unassignCall 1 cfgW.process_identifier] :=
  c4_stop_not_running cfgW sC4b qC4b 1 envC4 (accW 1) (by decide) rfl rfl rfl rfl rfl rfl

/-- C5: when the account row has disappeared, `stop_sync` dereferences
the missing row (`acc.sync_should_run` on `None`) and raises instead of
being the silent no-op its own docstring promises; the persistence and
unassign steps are never reached. -/
theorem c5_missing_row_raises :
    (stop_sync cfgW sC5 ⟨[]⟩ 7 envC5).err = some Err.other ∧
    (stop_sync cfgW sC5 ⟨[]⟩ 7 envC5).ret = none ∧
    Event.unassignCall 7 "hostA:0" ∉ (stop_sync cfgW sC5 ⟨[]⟩ 7 envC5).events := by
  decide

/-- C6: start-failure recovery.  If constructing or starting any monitor
raises during `start_sync` (and the final commit does not itself raise),
the exception is caught inside `start_sync` (no error propagates), an
error is logged for the account, no sync-started marker is recorded, the
id is left absent from `syncing_accounts`, and any later completed tick
whose desired set contains the id issues a `start_sync` call for it
again. -/
theorem c6_start_failure_recovery (cfg : Config) (s : SyncState) (id : Nat)
    (env : StartEnv) (acc : Account)
    (hacc : env.account = some acc) (hid : acc.id = id)
    (hnot : id ∉ s.syncing_accounts)
    (hfail : startSucceeds acc env = false) (hexit : env.exitErr = none) :
    (start_sync cfg s id env).err = none ∧
    Event.logError id ∈ (start_sync cfg s id env).events ∧
    (∀ a, Event.syncStartedMarker a ∉ (start_sync cfg s id env).events) ∧
    id ∉ (start_sync cfg s id env).state.syncing_accounts ∧
    (∀ (q2 : QueueState) (env2 : TickEnv), WFStartEnv env2.startEnv →
      (poll cfg (start_sync cfg s id env).state q2 env2).err = none →
      id ∈ desiredSet cfg q2 env2 →
      Event.startCall id ∈ (poll cfg (start_sync cfg s id env).state q2 env2).events) := by
  subst hid
  obtain ⟨h1, h2, h3, h4⟩ := start_sync_abandoned cfg s acc.id env acc hacc hnot hfail
  have habs : acc.id ∉ (start_sync cfg s acc.id env).state.syncing_accounts := by
    rw [h1]
    exact hnot
  refine ⟨by rw [h4, hexit], h2, h3, habs, ?_⟩
  intro q2 env2 hWF hok hD
  exact ((poll_calls cfg _ q2 env2 hWF hok acc.id).1).mpr ⟨hD, habs⟩

/-- Witness for C6: account 9's contact monitor constructor raises; the
start is abandoned and the next tick (with 9 still assigned) retries. -/
theorem c6_start_failure_recovery_witness :
    (start_sync cfgW1 initState 9 envFailC6).err = none ∧
    Event.logError 9 ∈ (start_sync cfgW1 initState 9 envFailC6).events ∧
    9 ∉ (start_sync cfgW1 initState 9 envFailC6).state.syncing_accounts ∧
    Event.startCall 9 ∈
      (poll cfgW1 (start_sync cfgW1 initState 9 envFailC6).state qC6 envTickC6).events := by
  have hWF : WFStartEnv envTickC6.startEnv := by
    intro j acc h
    injection h with h2
    rw [← h2]
    rfl
  have h := c6_start_failure_recovery cfgW1 initState 9 envFailC6
    ⟨9, true, true, false, "generic", true, false, true⟩ rfl rfl (by decide) (by decide) rfl
  exact ⟨h.1, h.2.1, h.2.2.2.1,
    h.2.2.2.2 qC6 envTickC6 hWF (by decide) (by decide)⟩

theorem unassign_not_assigned (q : QueueState) (id : Nat) (pid : String) :
    id ∉ accounts_to_sync pid (q.unassign id pid).1 := by
  intro h
  unfold accounts_to_sync QueueState.unassign at h
  rw [List.mem_dedup] at h
  simp only [List.mem_map, List.mem_filter] at h
  obtain ⟨p, ⟨⟨hmem, hneg⟩, hpid⟩, hfst⟩ := h
  rw [hfst] at hneg
  rw [show (p.2 == pid) = true from hpid] at hneg
  simp at hneg

/-- C7: stop postcondition.  For an id in RunningSet whose account row
still exists and whose commit succeeds, `stop_sync` kills every recorded
handle of all three kinds, empties all three monitor maps for the id,
removes the id from `syncing_accounts`, clears the heartbeat exactly when
the re-read account should no longer run, persists the sync-stopped
marker, calls unassign so a subsequent `assigned()` read no longer maps
the id to this process, raises nothing, and returns the release
acknowledgment. -/
theorem c7_stop_postcondition (cfg : Config) (s : SyncState) (q : QueueState)
    (id : Nat) (env : StopEnv) (acc : Account)
    (hrun : id ∈ s.syncing_accounts)
    (hacc : env.account = some acc) (hid : acc.id = id) (hdb : env.dbErr = none) :
    (∀ t, lookupA s.email_sync_monitors id = some t →
      Event.monitorKill t ∈ (stop_sync cfg s q id env).events) ∧
    (∀ t, lookupA s.contact_sync_monitors id = some t →
      Event.monitorKill t ∈ (stop_sync cfg s q id env).events) ∧
    (∀ em, lookupA s.event_sync_monitors id = some em →
      Event.monitorKill em.tok ∈ (stop_sync cfg s q id env).events) ∧
    lookupA (stop_sync cfg s q id env).state.email_sync_monitors id = none ∧
    lookupA (stop_sync cfg s q id env).state.contact_sync_monitors id = none ∧
    lookupA (stop_sync cfg s q id env).state.event_sync_monitors id = none ∧
    id ∉ (stop_sync cfg s q id env).state.syncing_accounts ∧
    (acc.sync_should_run = false →
      Event.clearHeartbeat id ∈ (stop_sync cfg s q id env).events) ∧
    Event.syncStoppedMarker id cfg.process_identifier ∈ (stop_sync cfg s q id env).events ∧
    Event.unassignCall id cfg.process_identifier ∈ (stop_sync cfg s q id env).events ∧
    (stop_sync cfg s q id env).err = none ∧
    (stop_sync cfg s q id env).ret = some (q.unassign id cfg.process_identifier).2 ∧
    id ∉ accounts_to_sync cfg.process_identifier (stop_sync cfg s q id env).queue := by
  subst hid
  rw [stop_sync_ok cfg s q acc.id env acc hacc hdb]
  refine ⟨?_, ?_, ?_, ?_, ?_, ?_, ?_, ?_, ?_, ?_, rfl, rfl, ?_⟩
  · intro t ht
    simp only [List.mem_append]
    refine Or.inl (Or.inl (Or.inl ?_))
    unfold killEvents
    rw [ht]
    simp
  · intro t ht
    simp only [List.mem_append]
    refine Or.inl (Or.inl (Or.inl ?_))
    unfold killEvents
    rw [ht]
    simp
  · intro em ht
    simp only [List.mem_append]
    refine Or.inl (Or.inl (Or.inl ?_))
    unfold killEvents
    rw [ht]
    simp
  · show lookupA (delA s.email_sync_monitors acc.id) acc.id = none
    rw [lookupA_delA, if_pos rfl]
  · show lookupA (delA s.contact_sync_monitors acc.id) acc.id = none
    rw [lookupA_delA, if_pos rfl]
  · show lookupA (delA s.event_sync_monitors acc.id) acc.id = none
    rw [lookupA_delA, if_pos rfl]
  · show acc.id ∉ removeL s.syncing_accounts acc.id
    rw [mem_removeL]
    rintro ⟨_, h2⟩
    exact h2 rfl
  · intro hr
    simp only [List.mem_append]
    refine Or.inl (Or.inl (Or.inr ?_))
    rw [hr]
    simp
  · simp
  · simp
  · exact unassign_not_assigned q acc.id cfg.process_identifier

/-- Witness for C7 at an account with all three handles recorded. -/
theorem c7_stop_postcondition_witness :
    Event.monitorKill 50 ∈ (stop_sync cfgW sC7 qC7 5 envC7).events ∧
    Event.monitorKill 51 ∈ (stop_sync cfgW sC7 qC7 5 envC7).events ∧
    Event.monitorKill 52 ∈ (stop_sync cfgW sC7 qC7 5 envC7).events ∧
    5 ∉ (stop_sync cfgW sC7 qC7 5 envC7).state.syncing_accounts ∧
    Event.clearHeartbeat 5 ∈ (stop_sync cfgW sC7 qC7 5 envC7).events ∧
    Event.unassignCall 5 "hostA:0" ∈ (stop_sync cfgW sC7 qC7 5 envC7).events ∧
    (stop_sync cfgW sC7 qC7 5 envC7).err = none ∧
    5 ∉ accounts_to_sync "hostA:0" (stop_sync cfgW sC7 qC7 5 envC7).queue := by
  have h := c7_stop_postcondition cfgW sC7 qC7 5 envC7
    ⟨5, true, true, true, "generic", true, true, false⟩ (by decide) rfl rfl rfl
  exact ⟨h.1 50 rfl, h.2.1 51 rfl, h.2.2.1 ⟨52, false⟩ rfl, h.2.2.2.2.2.2.1,
    h.2.2.2.2.2.2.2.1 rfl, h.2.2.2.2.2.2.2.2.2.1, h.2.2.2.2.2.2.2.2.2.2.1,
    h.2.2.2.2.2.2.2.2.2.2.2.2⟩

/-- C8 counterexample: a non-OperationalError raised by `stop_sync` (the
AttributeError from account 1's missing row) is NOT caught by the
converge loop; the tick aborts and the sibling account 2, due to be
stopped in the same tick, is never processed. -/
theorem c8_counterexample :
    (poll cfgW1 s8 ⟨[]⟩ env8).err = some Err.other ∧
    Event.stopCall 1 ∈ (poll cfgW1 s8 ⟨[]⟩ env8).events ∧
    Event.stopCall 2 ∉ (poll cfgW1 s8 ⟨[]⟩ env8).events ∧
    2 ∈ (poll cfgW1 s8 ⟨[]⟩ env8).state.syncing_accounts := by
  decide

/-- C8 amended: per-account failure isolation holds exactly for
persistence-layer `OperationalError`s: when every failure a tick's
start and stop calls encounter is an OperationalError (account rows
present, commits raising at worst OperationalError), no exception
escapes the tick and every id in the diff still receives its start or
stop call.  Any other exception aborts the tick (and is retried by the
outer loop wrapper). -/
theorem c8_isolation (cfg : Config) (s : SyncState) (q : QueueState) (env : TickEnv)
    (hWF : WFStartEnv env.startEnv)
    (hstart : ∀ id2, (env.startEnv id2).exitErr ≠ some Err.other)
    (hstop : ∀ id2, (env.stopEnv id2).account ≠ none ∧
      (env.stopEnv id2).dbErr ≠ some Err.other) :
    (poll cfg s q env).err = none ∧
    ∀ k, (Event.startCall k ∈ (poll cfg s q env).events ↔
            k ∈ desiredSet cfg q env ∧ k ∉ s.syncing_accounts) ∧
         (Event.stopCall k ∈ (poll cfg s q env).events ↔
            k ∈ s.syncing_accounts ∧ k ∉ desiredSet cfg q env) := by
  have hok := poll_err_none cfg s q env hstart hstop
  exact ⟨hok, poll_calls cfg s q env hWF hok⟩

/-- Witness for the amended C8: both stops hit an OperationalError during
their commit, yet the tick completes and both stop calls are issued. -/
theorem c8_isolation_witness :
    (poll cfgW1 s8 ⟨[]⟩ env8b).err = none ∧
    (Event.stopCall 1 ∈ (poll cfgW1 s8 ⟨[]⟩ env8b).events ↔
      1 ∈ s8.syncing_accounts ∧ 1 ∉ desiredSet cfgW1 ⟨[]⟩ env8b) ∧
    (Event.stopCall 2 ∈ (poll cfgW1 s8 ⟨[]⟩ env8b).events ↔
      2 ∈ s8.syncing_accounts ∧ 2 ∉ desiredSet cfgW1 ⟨[]⟩ env8b) := by
  have hWF : WFStartEnv env8b.startEnv := by
    intro j acc h
    injection h with h2
    rw [← h2]
    rfl
  have h := c8_isolation cfgW1 s8 ⟨[]⟩ env8b hWF
    (fun j => by simp [env8b, envOkW])
    (fun j => by refine ⟨by simp [env8b], by simp [env8b]⟩)
  exact ⟨h.1, (h.2 1).2, (h.2 2).2⟩

/-- C9 (Invariant I1): in every state reachable by any sequence of start
and stop operations from the empty initial state, every id in
`syncing_accounts` has at least one recorded monitor handle, unless some
start of that id read an account to which none of the three capability
flags applied. -/
theorem c9_invariant_i1 (cfg : Config) (q0 : QueueState) (ops : List Op) :
    ∀ k, k ∈ (runOps cfg q0 ops).1.syncing_accounts →
      hasHandle (runOps cfg q0 ops).1 k ∨ ∃ op ∈ ops, noCapsOp op k := by
  intro k hk
  unfold runOps at hk ⊢
  have h := foldOps_pres cfg ops (initState, q0) (fun _ => False)
    (fun k2 hk2 => absurd hk2 (by simp [initState])) k hk
  rcases h with h | h | h
  · exact Or.inl h
  · exact absurd h (fun hf => hf)
  · exact Or.inr h

/-- Witness for C9 after a start-start-stop history. -/
theorem c9_invariant_i1_witness :
    1 ∈ (runOps cfgW ⟨[]⟩ opsW9).1.syncing_accounts ∧
    (hasHandle (runOps cfgW ⟨[]⟩ opsW9).1 1 ∨ ∃ op ∈ opsW9, noCapsOp op 1) :=
  ⟨by decide, c9_invariant_i1 cfgW ⟨[]⟩ opsW9 1 (by decide)⟩

/-- C10: start is not atomic on error.  With account 10's contact-monitor
constructor raising after the email monitor was already recorded and
started, the email handle stays recorded and is never killed while the id
stays out of `syncing_accounts`; the retried start on a later tick
overwrites the stale handle (token 100 becomes 102) without ever issuing
a kill for it. -/
theorem c10_partial_start :
    lookupA (start_sync cfgW initState 10 envX1).state.email_sync_monitors 10 = some 100 ∧
    Event.monitorStart 100 ∈ (start_sync cfgW initState 10 envX1).events ∧
    Event.monitorKill 100 ∉ (start_sync cfgW initState 10 envX1).events ∧
    10 ∉ (start_sync cfgW initState 10 envX1).state.syncing_accounts ∧
    lookupA (start_sync cfgW (start_sync cfgW initState 10 envX1).state 10
      envX2).state.email_sync_monitors 10 = some 102 ∧
    Event.monitorKill 100 ∉
      (start_sync cfgW (start_sync cfgW initState 10 envX1).state 10 envX2).events ∧
    10 ∈ (start_sync cfgW (start_sync cfgW initState 10 envX1).state 10
      envX2).state.syncing_accounts := by
  decide
